import Mathlib

/-
  Verification development for the pygor translator (src/pygor.go plus
  src/runtime/runtime.go).

  The development is a shallow embedding of the translator core: the
  jennifer/jen code fragments that pygor emits are modelled as flat token
  lists (the token stream a fragment renders to), the translator state
  (scope chain, import-alias map) is threaded explicitly, and every Go
  panic / log.Fatalf / nil-pointer crash is modelled as an error value of
  an Except monad.  The global flag panicUnknown (the strict/lenient mode
  toggle, flag -panic) is passed as an explicit boolean parameter named
  strict.

  Modelling notes, applying throughout:
  * jen.Statement values are token lists; Statement.Add is list append,
    jen.Null() is the empty list, and Clone (a deep copy) is the identity
    on values.
  * Comments built with jen.Commentf keep their format string as a token
    and carry the token streams of their fragment arguments verbatim
    (GoString rendering of a fragment is represented by the fragment's
    own tokens); arguments that are plain Go strings are interpolated
    into the comment text directly.
  * Source positions of AST nodes are not tracked on the embedded AST.
    The unknown-construct handler is therefore modelled over a small
    record (UVal) carrying exactly what the handler reads from its
    argument: the dynamic type tag, the textual dump, and the optional
    position.  Embedded expression nodes are given the placeholder
    position line 0, col 0 where the handler would read one.
  * The verbose / debug logging, the -lines flag (source line comments)
    and the jen.File import-registration side effects of Scope.Render are
    not modelled: they only affect logging and final pretty-printing, not
    the fragments the claims are about.
-/

/-! ## Tokens and code fragments -/

/-- One token of an emitted target-language fragment. -/
inductive Tok where
  | id (s : String)          -- identifier (jen.Id)
  | litStr (s : String)      -- string literal (jen.Lit of a string)
  | litInt (n : Int)         -- integer literal (jen.Lit of an int)
  | op (s : String)          -- operator token (jen.Op)
  | qual (pkg nm : String)   -- qualified reference (jen.Qual)
  | kw (s : String)          -- keyword token (jen.Func, jen.Var, jen.Return, ...)
  | dot (s : String)         -- field/method selection (jen.Dot)
  | lparen | rparen          -- parenthesised group (jen.Parens / Call / Params)
  | lbrack | rbrack          -- bracketed group (jen.Index)
  | lbrace | rbrace          -- braced group (jen.Block / Values / Struct)
  | comma                    -- separator inside List/Call/Params/Values groups
  | colon                    -- separator inside Index groups
  | line                     -- line break (jen.Line)
  | nilL | trueL | falseL    -- jen.Nil / jen.True / jen.False
  | assertDot                -- the dot of a type assertion (jen.Assert)
  | cmtl (f : String)        -- comment opening, carrying the comment text/format
  | cmtr                     -- comment closing
  deriving DecidableEq, Repr

/-- A code fragment: the token stream of a jen.Statement. -/
abbrev Frag := List Tok

/-- Join a list of fragments with a separator token sequence. -/
def joinFrags (sep : Frag) : List Frag → Frag
  | [] => []
  | [f] => f
  | f :: rest => f ++ sep ++ joinFrags sep rest

/-- Group rendered by jen.Call / jen.Params / jen.ParamsFunc: parenthesised, comma separated. -/
def callOf (args : List Frag) : Frag := [Tok.lparen] ++ joinFrags [Tok.comma] args ++ [Tok.rparen]

/-- Group rendered by jen.Parens around a single fragment. -/
def parensOf (f : Frag) : Frag := [Tok.lparen] ++ f ++ [Tok.rparen]

/-- Group rendered by jen.Index: bracketed, colon separated. -/
def indexOf (items : List Frag) : Frag := [Tok.lbrack] ++ joinFrags [Tok.colon] items ++ [Tok.rbrack]

/-- Group rendered by jen.Values / jen.ValuesFunc: braced, comma separated. -/
def valuesOf (items : List Frag) : Frag := [Tok.lbrace] ++ joinFrags [Tok.comma] items ++ [Tok.rbrace]

/-- Group rendered by jen.Block / jen.BlockFunc: braced, one statement per line. -/
def blockOf (items : List Frag) : Frag := [Tok.lbrace] ++ joinFrags [Tok.line] items ++ [Tok.rbrace]

/-- Comma-separated list, no delimiters (jen.List / jen.ListFunc). -/
def listOf (items : List Frag) : Frag := joinFrags [Tok.comma] items

/-- Plain comment (jen.Comment). -/
def commentOf (s : String) : Frag := [Tok.cmtl s, Tok.cmtr]

/-- Formatted comment whose arguments are fragments (jen.Commentf applied to
GoString renderings); the fragments' tokens are carried verbatim. -/
def commentF (f : String) (args : List Frag) : Frag := [Tok.cmtl f] ++ args.flatten ++ [Tok.cmtr]

/-- Import path of the pygor runtime-support package. -/
def pygorRuntime : String := "github.com/raff/pygor/runtime"

def goAny : Frag := [Tok.qual pygorRuntime "Any"]
def goListT : Frag := [Tok.qual pygorRuntime "List"]
def goTupleT : Frag := [Tok.qual pygorRuntime "Tuple"]
def goDictT : Frag := [Tok.qual pygorRuntime "Dict"]
def goExceptionT : Frag := [Tok.qual pygorRuntime "PyException"]
def goContainsF : Frag := [Tok.qual pygorRuntime "Contains"]

/-! ## Errors and the unknown-construct handler -/

/-- Aborts of the translator: Go panics, log.Fatalf / log.Panicf calls and
runtime crashes (nil-pointer dereference, out-of-range slice index).
The fuelOut value is an artifact of this embedding only: the recursive
translator is given a step budget (fuel) in place of a termination
measure; the source recursion is structurally terminating, and every
theorem below either holds for all budgets or exhibits a sufficient
one. -/
inductive Err where
  | panicked (msg : String)
  | fatalError (msg : String)
  | nilPointer
  | indexRange
  | fuelOut
  deriving DecidableEq, Repr

/-- What the unknown-construct handler reads from its interface argument:
the dynamic type tag (fmt verb T), the value dump (fmt verb hash-v) and,
when the value is an ast.Expr, its source position. -/
structure UVal where
  typeTag : String
  dump : String
  pos : Option (Int × Int)
  deriving DecidableEq, Repr

/-- UVal of a plain Go string argument (ops are passed as op.String()). -/
def strUVal (s : String) : UVal := { typeTag := "string", dump := "\"" ++ s ++ "\"", pos := Option.none }

/-- UVal of a nil interface argument. -/
def nilUVal : UVal := { typeTag := "<nil>", dump := "<nil>", pos := Option.none }

/-- Diagnostic message of the unknown-construct handler (pygor.go, func
unknown): UNKNOWN-typ, the type tag, the dump, and the position when the
offending value is an expression. -/
def unknownMsg (typ : String) (v : UVal) : String :=
  let base := "UNKNOWN-" ++ typ ++ ": " ++ v.typeTag ++ " " ++ v.dump
  match v.pos with
  | Option.some lc => base ++ " at line " ++ toString lc.1 ++ ", col " ++ toString lc.2
  | Option.none => base

/-- The unknown-construct handler (pygor.go, func unknown): in strict mode
(panicUnknown set) it panics with the diagnostic; in lenient mode it
returns the diagnostic as a literal fragment. -/
def unknown (strict : Bool) (typ : String) (v : UVal) : Except Err Frag :=
  if strict then Except.error (Err.panicked (unknownMsg typ v))
  else Except.ok [Tok.litStr (unknownMsg typ v)]

/-! ## Construct mapping tables -/

/-- Name-rewrite table (pygor.go, gokeywords). -/
def gokeywords (s : String) : Option String :=
  match s with
  | "func" => Option.some "funcΠ"
  | "str" => Option.some "string"
  | "float" => Option.some "float64"
  | "complex" => Option.some "complex128"
  | "dict" => Option.some "Dict"
  | "list" => Option.some "List"
  | "tuple" => Option.some "Tuple"
  | "Any" => Option.some "AnyΠ"
  | "Dict" => Option.some "DictΠ"
  | "List" => Option.some "ListΠ"
  | "Tuple" => Option.some "TupleΠ"
  | _ => Option.none

/-- Identifier renaming (pygor.go, func rename). -/
def rename (s : String) : String :=
  match gokeywords s with
  | Option.some n => n
  | Option.none => s

/-- Identifier fragment with the sys.stdin/stdout/stderr special cases
(pygor.go, func goId). -/
def goId (s : String) : Frag :=
  if s = "sys.stdin" then [Tok.qual "os" "Stdin"]
  else if s = "sys.stdout" then [Tok.qual "os" "Stdout"]
  else if s = "sys.stderr" then [Tok.qual "os" "Stderr"]
  else if String.startsWith s "sys.stdin." then [Tok.qual "os" "Stdin", Tok.id (String.drop s 10)]
  else if String.startsWith s "sys.stdout." then [Tok.qual "os" "Stdout", Tok.id (String.drop s 11)]
  else if String.startsWith s "sys.stderr." then [Tok.qual "os" "Stderr", Tok.id (String.drop s 11)]
  else [Tok.id (rename s)]

/-- Boolean-operator kinds (ast.BoolOpNumber). -/
inductive BoolOpKind where
  | andB | orB
  deriving DecidableEq, Repr

/-- Boolean-operator table (pygor.go, Scope.goBoolOp); the unknown
fallthrough of the source is unreachable because ast has exactly And/Or. -/
def goBoolOp : BoolOpKind → Frag
  | BoolOpKind.andB => [Tok.op "&&"]
  | BoolOpKind.orB => [Tok.op "||"]

/-- Unary-operator kinds (ast.UnaryOpNumber). -/
inductive UnaryKind where
  | notU | uAdd | uSub | invert
  deriving DecidableEq, Repr

/-- Stringer of ast.UnaryOpNumber, used in the unknown diagnostic. -/
def unaryName : UnaryKind → String
  | UnaryKind.notU => "Not"
  | UnaryKind.uAdd => "UAdd"
  | UnaryKind.uSub => "USub"
  | UnaryKind.invert => "Invert"

/-- Unary-operator table (pygor.go, Scope.goUnary).  Not/UAdd/USub map to
operator tokens; Invert is not in the table and falls through to the
unknown-construct handler. -/
def goUnary (strict : Bool) : UnaryKind → Except Err Frag
  | UnaryKind.notU => Except.ok [Tok.op "!"]
  | UnaryKind.uAdd => Except.ok [Tok.op "+"]
  | UnaryKind.uSub => Except.ok [Tok.op "-"]
  | op => unknown strict "UNARY" (strUVal (unaryName op))

/-- Binary-operator kinds (ast.OperatorNumber). -/
inductive OpKind where
  | add | sub | mult | div | modulo | pow
  | lshift | rshift | bitOr | bitXor | bitAnd | floorDiv
  deriving DecidableEq, Repr

/-- Binary-operator table with an optional suffix, used for augmented
assignment (pygor.go, Scope.goOpExt); every ast operator kind is in the
table, so the source's unknown fallthrough is unreachable. -/
def goOpExt (op : OpKind) (ext : String) : Frag :=
  match op with
  | OpKind.add => [Tok.op ("+" ++ ext)]
  | OpKind.sub => [Tok.op ("-" ++ ext)]
  | OpKind.mult => [Tok.op ("*" ++ ext)]
  | OpKind.div => [Tok.op ("/" ++ ext)]
  | OpKind.modulo => [Tok.op ("%" ++ ext)]
  | OpKind.pow => [Tok.op ("**" ++ ext)]
  | OpKind.lshift => [Tok.op ("<<" ++ ext)]
  | OpKind.rshift => [Tok.op (">>" ++ ext)]
  | OpKind.bitOr => [Tok.op ("|" ++ ext)]
  | OpKind.bitXor => [Tok.op ("^" ++ ext)]
  | OpKind.bitAnd => [Tok.op ("&" ++ ext)]
  | OpKind.floorDiv => [Tok.op ("//" ++ ext)]

/-- Binary-operator table (pygor.go, Scope.goOp). -/
def goOp (op : OpKind) : Frag := goOpExt op ""

/-- Comparison-operator kinds (ast.CmpOp). -/
inductive CmpKind where
  | eq | notEq | lt | ltE | gt | gtE | isCmp | isNotCmp | inCmp | notInCmp
  deriving DecidableEq, Repr

/-- Comparison-operator table (pygor.go, Scope.goCmpOp).  Every ast
comparison kind is in the table (identity maps to equality), so the
source's unknown fallthrough is unreachable. -/
def goCmpOp : CmpKind → Frag
  | CmpKind.eq => [Tok.op "=="]
  | CmpKind.notEq => [Tok.op "!="]
  | CmpKind.lt => [Tok.op "<"]
  | CmpKind.ltE => [Tok.op "<="]
  | CmpKind.gt => [Tok.op ">"]
  | CmpKind.gtE => [Tok.op ">="]
  | CmpKind.isCmp => [Tok.op "=="]
  | CmpKind.isNotCmp => [Tok.op "!="]
  | CmpKind.inCmp => [Tok.op "in"]
  | CmpKind.notInCmp => [Tok.op "not in"]

/-! ## The embedded source AST

A faithful subset of the gpython ast node kinds handled by pygor.go.
Number literals are modelled for py.Int only (Float/Complex literals and
the unreachable invalid-number panic are omitted); comprehension nodes,
loop statements and exception statements are outside this embedding.
Node kinds that have no mapping rule in goExpr / parseBody at all are
represented by the unmappedE / unmappedS constructors, carrying exactly
the data the unknown-construct handler reads from such a node. -/

/-- ast.NameConstant values (py.None / py.True / py.False). -/
inductive PyConst where
  | noneC | trueC | falseC
  deriving DecidableEq, Repr

mutual
inductive PyExpr where
  | name (id : String)
  | num (n : Int)
  | str (s : String)
  | nameConstant (value : PyConst)
  | tuple (elts : List PyExpr)
  | listE (elts : List PyExpr)
  | dict (keys : List PyExpr) (values : List PyExpr)
  | boolOp (op : BoolOpKind) (values : List PyExpr)
  | binOp (left : PyExpr) (op : OpKind) (right : PyExpr)
  | unaryOp (op : UnaryKind) (operand : PyExpr)
  | compare (left : PyExpr) (pairs : List (CmpKind × PyExpr))
  | attribute (value : PyExpr) (attr : String)
  | subscript (value : PyExpr) (slice : Slicer)
  | call (func : PyExpr) (args : List PyExpr) (keywords : List Keyword)
      (starargs : Option PyExpr) (kwargs : Option PyExpr)
  | lambda (args : Option Arguments) (body : PyExpr)
  | ifExp (test : PyExpr) (body : PyExpr) (orelse : PyExpr)
  | unmappedE (u : UVal)

/-- ast.Slicer: the three slice shapes of a subscript. -/
inductive Slicer where
  | sliceS (lower : Option PyExpr) (upper : Option PyExpr) (step : Option PyExpr)
  | indexS (value : PyExpr)
  | extSlice

/-- ast.Keyword: a keyword argument. -/
inductive Keyword where
  | mk (arg : String) (value : PyExpr)

/-- ast.Arg: a formal parameter with an optional type annotation. -/
inductive PyArg where
  | mk (arg : String) (ann : Option PyExpr)

/-- ast.Arguments (the Defaults field is unused by pygor and omitted). -/
inductive Arguments where
  | mk (args : List PyArg) (vararg : Option PyArg) (kwonlyargs : List PyArg)
      (kwDefaults : List PyExpr) (kwarg : Option PyArg)
end

def Keyword.arg : Keyword → String
  | Keyword.mk a _ => a

def Keyword.value : Keyword → PyExpr
  | Keyword.mk _ v => v

def PyArg.arg : PyArg → String
  | PyArg.mk a _ => a

def PyArg.ann : PyArg → Option PyExpr
  | PyArg.mk _ a => a

def Arguments.args : Arguments → List PyArg
  | Arguments.mk a _ _ _ _ => a

def Arguments.vararg : Arguments → Option PyArg
  | Arguments.mk _ v _ _ _ => v

def Arguments.kwonlyargs : Arguments → List PyArg
  | Arguments.mk _ _ k _ _ => k

def Arguments.kwDefaults : Arguments → List PyExpr
  | Arguments.mk _ _ _ d _ => d

def Arguments.kwarg : Arguments → Option PyArg
  | Arguments.mk _ _ _ _ k => k

/-- The statement kinds of parseBody embedded here (control-flow
statements and module imports are outside this embedding). -/
inductive Stmt where
  | functionDef (nm : String) (args : Option Arguments) (body : List Stmt)
      (decoratorList : List PyExpr) (returns : Option PyExpr)
  | classDef (nm : String) (bases : List PyExpr) (keywords : List Keyword)
      (body : List Stmt) (decoratorList : List PyExpr)
  | assign (targets : List PyExpr) (value : PyExpr)
  | augAssign (target : PyExpr) (op : OpKind) (value : PyExpr)
  | exprStmt (value : PyExpr)
  | pass
  | returnS (value : Option PyExpr)
  | assertS (test : PyExpr) (msg : Option PyExpr)
  | delete (targets : List PyExpr)
  | unmappedS (u : UVal)

/-- Dynamic type tag of an embedded expression node, as the unknown
handler's fmt verb T would print it; positions are not tracked on the
embedded AST, so the position every ast.Expr carries is given as the
placeholder 0,0 (no claim depends on position values of mapped nodes). -/
def uvalOfExpr : PyExpr → UVal
  | PyExpr.name _ => { typeTag := "*ast.Name", dump := "", pos := Option.some (0, 0) }
  | PyExpr.num _ => { typeTag := "*ast.Num", dump := "", pos := Option.some (0, 0) }
  | PyExpr.str _ => { typeTag := "*ast.Str", dump := "", pos := Option.some (0, 0) }
  | PyExpr.nameConstant _ => { typeTag := "*ast.NameConstant", dump := "", pos := Option.some (0, 0) }
  | PyExpr.tuple _ => { typeTag := "*ast.Tuple", dump := "", pos := Option.some (0, 0) }
  | PyExpr.listE _ => { typeTag := "*ast.List", dump := "", pos := Option.some (0, 0) }
  | PyExpr.dict _ _ => { typeTag := "*ast.Dict", dump := "", pos := Option.some (0, 0) }
  | PyExpr.boolOp _ _ => { typeTag := "*ast.BoolOp", dump := "", pos := Option.some (0, 0) }
  | PyExpr.binOp _ _ _ => { typeTag := "*ast.BinOp", dump := "", pos := Option.some (0, 0) }
  | PyExpr.unaryOp _ _ => { typeTag := "*ast.UnaryOp", dump := "", pos := Option.some (0, 0) }
  | PyExpr.compare _ _ => { typeTag := "*ast.Compare", dump := "", pos := Option.some (0, 0) }
  | PyExpr.attribute _ _ => { typeTag := "*ast.Attribute", dump := "", pos := Option.some (0, 0) }
  | PyExpr.subscript _ _ => { typeTag := "*ast.Subscript", dump := "", pos := Option.some (0, 0) }
  | PyExpr.call _ _ _ _ _ => { typeTag := "*ast.Call", dump := "", pos := Option.some (0, 0) }
  | PyExpr.lambda _ _ => { typeTag := "*ast.Lambda", dump := "", pos := Option.some (0, 0) }
  | PyExpr.ifExp _ _ _ => { typeTag := "*ast.IfExp", dump := "", pos := Option.some (0, 0) }
  | PyExpr.unmappedE u => u

/-! ## The runtime-support assertion helper (src/runtime/runtime.go) -/

/-- runtime.Assert: panics with an AssertionError message when the
condition is false. -/
def runtimeAssert (cond : Bool) (message : String) : Except String Unit :=
  if cond then Except.ok () else Except.error ("AssertionError: " ++ message)

/-! ## Scope chain and translator state -/

/-- One lexical scope (pygor.go, type Scope): nesting level, the set of
names known in this scope, the accumulating statement (parsed), the list
of emitted fragments (body) and the pending-method buffer (methods).
The parent/child links are represented by the position in the chain list
of TState; the jen.File handle is not modelled. -/
structure Scope where
  level : Int
  vars : List String
  parsed : Frag
  body : List Frag
  methods : List Frag
  deriving DecidableEq, Repr

/-- A fresh scope (pygor.go, NewScope). -/
def newScope : Scope := { level := 0, vars := [], parsed := [], body := [], methods := [] }

/-- Translator state: the scope chain (head = current scope, last =
module root) and the module-wide import-alias map (shared by reference
by every scope in the source, hence a single field here). -/
structure TState where
  chain : List Scope
  imports : List (String × String)
  deriving DecidableEq, Repr

/-- The translation monad: state plus translator aborts. -/
def TM (α : Type) : Type := TState → Except Err (α × TState)

def TM.pure {α : Type} (a : α) : TM α := fun st => Except.ok (a, st)

def TM.bind {α β : Type} (x : TM α) (f : α → TM β) : TM β := fun st =>
  match x st with
  | Except.error e => Except.error e
  | Except.ok (a, st1) => f a st1

instance : Monad TM where
  pure := TM.pure
  bind := TM.bind

/-- Abort translation (a Go panic / fatal error / crash). -/
def TM.throw {α : Type} (e : Err) : TM α := fun _ => Except.error e

/-- Lift the Except-valued unknown handler into the monad. -/
def liftE {α : Type} (x : Except Err α) : TM α := fun st =>
  match x with
  | Except.error e => Except.error e
  | Except.ok a => Except.ok (a, st)

def TM.getState : TM TState := fun st => Except.ok (st, st)

/-- Modify the current (innermost) scope.  The empty-chain case cannot
arise in the translator (a module root scope always exists). -/
def modifyCur (f : Scope → Scope) : TM Unit := fun st =>
  match st.chain with
  | [] => Except.ok ((), st)
  | c :: rest => Except.ok ((), { st with chain := f c :: rest })

/-- Read the current scope. -/
def getCur : TM Scope := fun st =>
  match st.chain with
  | [] => Except.ok (newScope, st)
  | c :: _ => Except.ok (c, st)

/-- Scope.addName: unconditionally mark a name as known in the current scope. -/
def addName (nm : String) : TM Unit := modifyCur fun c => { c with vars := nm :: c.vars }

/-- Scope.Add: append a fragment to the accumulating statement and to the
body list of the current scope. -/
def addStmt (f : Frag) : TM Unit :=
  modifyCur fun c => { c with parsed := c.parsed ++ f, body := c.body ++ [f] }

/-- Scope.Push: enter a child scope with a fresh name set (the import
map is shared module-wide and stays in TState). -/
def pushScope : TM Unit := fun st =>
  match st.chain with
  | c :: _ => Except.ok ((), { st with chain := { newScope with level := c.level + 1 } :: st.chain })
  | [] => Except.ok ((), { st with chain := [newScope] })

/-- Scope.Pop on the chain: flush the popped scope's pending methods into
the parent, and when the parent is the module root, flush the root's
pending methods into the root's body. -/
def popChain : List Scope → List Scope
  | c :: p :: rest =>
      let p1 := { p with methods := p.methods ++ c.methods }
      let p2 :=
        if rest = [] ∧ p1.methods ≠ [] then
          { p1 with body := p1.body ++ p1.methods, methods := [] }
        else p1
      p2 :: rest
  | l => l

/-- Scope.Pop in the monad. -/
def popScope : TM Unit := fun st => Except.ok ((), { st with chain := popChain st.chain })

/-- Run an action with the receiver being the parent of the current
scope: the current scope is removed from the chain for the duration of
the action and restored afterwards.  This models the places in the
ClassDef handler where, after pushing the class scope, methods and the
struct fragment are added to the outer scope s rather than to the class
scope ss. -/
def atParent {α : Type} (m : TM α) : TM α := fun st =>
  match st.chain with
  | c :: rest =>
      match m { st with chain := rest } with
      | Except.error e => Except.error e
      | Except.ok (a, st2) => Except.ok (a, { st2 with chain := c :: st2.chain })
  | [] => m st

/-- Scope.Render: hand over the accumulated statement and reset it (the
discard-rendering to the jen.File, done only to register imports, is not
modelled). -/
def renderScope : TM Frag := fun st =>
  match st.chain with
  | [] => Except.ok ([], st)
  | c :: rest => Except.ok (c.parsed, { st with chain := { c with parsed := [] } :: rest })

/-- Import-alias lookup; a missing key yields the empty string, as for a
Go map read. -/
def importLookup (l : List (String × String)) (k : String) : String :=
  match l.lookup k with
  | Option.some v => v
  | Option.none => ""

/-- Scope.newNames (pygor.go): walk the assignment-target list; a plain
identifier absent from every scope of the chain is declared in the
current scope and makes the result true. -/
def newNames (chain : List Scope) : List PyExpr → Bool × List Scope
  | [] => (false, chain)
  | t :: rest =>
      match t with
      | PyExpr.name nn =>
          let found := chain.any fun sc => sc.vars.contains nn
          if found then newNames chain rest
          else
            let chain1 :=
              match chain with
              | [] => []
              | c :: others => { c with vars := nn :: c.vars } :: others
            let r := newNames chain1 rest
            (true, r.2)
      | _ => newNames chain rest

/-! ## The expression translator (pygor.go, Scope.goExpr and helpers)

The recursive translator is one mutual block, structurally recursive on
an explicit step budget (fuel); every recursive call runs under the
budget decremented at entry, and an exhausted budget aborts with
Err.fuelOut (see the note on Err).  The source's helpers that loop over
sub-expression lists (goExprList, goKvals, goCall's argument loop,
goFunctionArguments' parameter loops) are modelled as element-wise
recursions returning the per-element fragments, joined with the
appropriate separator at the use site.  The callee dispatch of goCall
is split into goCall / goIsinstance / goCallAttr / sysChecks / callTail
along the source's switch structure.  Every function takes the strict
flag (panicUnknown). -/

mutual

/-- Scope.goExpr: translate one expression node into one fragment. -/
def goExpr (fuel : Nat) (strict : Bool) (e : PyExpr) : TM Frag :=
  match fuel with
  | 0 => TM.throw Err.fuelOut
  | Nat.succ n =>
    match e with
    | PyExpr.tuple elts => do
        -- goInitialized(goTuple, v.Elts)
        let fs ← goExprEach n strict elts
        TM.pure (parensOf (goTupleT ++ valuesOf fs))
    | PyExpr.listE elts => do
        -- goInitialized(goList, v.Elts)
        let fs ← goExprEach n strict elts
        TM.pure (parensOf (goListT ++ valuesOf fs))
    | PyExpr.dict keys values => do
        -- jen.Parens(goDict.Values(jen.DictFunc(...))); entries are kept in
        -- source order (jen sorts map entries only at render time)
        let items ← goDictItems n strict keys values
        TM.pure (parensOf (goDictT ++ [Tok.lbrace] ++ joinFrags [Tok.comma] items ++ [Tok.rbrace]))
    | PyExpr.num nv => TM.pure [Tok.litInt nv]
    | PyExpr.nameConstant c =>
        match c with
        | PyConst.noneC => TM.pure [Tok.nilL]
        | PyConst.trueC => TM.pure [Tok.trueL]
        | PyConst.falseC => TM.pure [Tok.falseL]
    | PyExpr.str s => TM.pure [Tok.litStr s]
    | PyExpr.unaryOp op operand =>
        if op = UnaryKind.invert then do
          let u ← liftE (goUnary strict op)
          let f ← goExpr n strict operand
          TM.pure (u ++ parensOf (f ++ [Tok.op "+", Tok.litInt 1]))
        else do
          let u ← liftE (goUnary strict op)
          let f ← goExpr n strict operand
          TM.pure (u ++ f)
    | PyExpr.boolOp op values =>
        match values with
        | [] => TM.throw Err.indexRange
        | v0 :: rest => do
            let f0 ← goExpr n strict v0
            boolFold n strict op rest f0
    | PyExpr.binOp left op right => goBinOp n strict left op right
    | PyExpr.compare left pairs => do
        let lf ← goExpr n strict left
        goCmpFold n strict pairs [] lf Option.none
    | PyExpr.name id => TM.pure (goId id)
    | PyExpr.attribute value attr => do
        let st ← TM.getState
        let imp :=
          match value with
          | PyExpr.name nid => importLookup st.imports nid
          | _ => ""
        if imp ≠ "" then TM.pure [Tok.qual imp attr]
        else do
          let f ← goExpr n strict value
          TM.pure (f ++ [Tok.dot (rename attr)])
    | PyExpr.subscript value slice => goSlice n strict value slice
    | PyExpr.call func args keywords starargs kwargs =>
        goCall n strict func args keywords starargs kwargs
    | PyExpr.lambda largs body => do
        let p ← goFunctionArguments n strict largs false
        let bf ← goExpr n strict body
        TM.pure ([Tok.kw "func"] ++ callOf [p.1] ++ blockOf [bf] ++ callOf [])
    | PyExpr.ifExp test body orelse => do
        let tf ← goExpr n strict test
        let bf ← goExpr n strict body
        let ef ← goExpr n strict orelse
        TM.pure ([Tok.kw "func"] ++ callOf [] ++ blockOf
          [[Tok.kw "if"] ++ tf ++ blockOf [[Tok.kw "return"] ++ bf] ++ [Tok.kw "else"]
            ++ blockOf [[Tok.kw "return"] ++ ef]] ++ callOf [])
    | PyExpr.unmappedE u => liftE (unknown strict "EXPR" u)

/-- The BinOp case of goExpr: a string left operand of the modulo
operator is a formatting operation rewritten to a Sprintf call (a tuple
right operand is first translated normally, then re-translated as an
expanded argument list, as the source does); every other operator is a
table lookup. -/
def goBinOp (fuel : Nat) (strict : Bool) (left : PyExpr) (op : OpKind) (right : PyExpr) : TM Frag :=
  match fuel with
  | 0 => TM.throw Err.fuelOut
  | Nat.succ n =>
    match op, left with
    | OpKind.modulo, PyExpr.str fs => do
        let printfmt ← goExpr n strict (PyExpr.str fs)
        let params0 ← goExpr n strict right
        let params ←
          match right with
          | PyExpr.tuple elts => do
              let fs2 ← goExprEach n strict elts
              TM.pure (listOf fs2)
          | _ => TM.pure params0
        TM.pure ([Tok.qual "fmt" "Sprintf"] ++ callOf [printfmt, params])
    | op2, left2 => do
        let lf ← goExpr n strict left2
        let rf ← goExpr n strict right
        TM.pure (lf ++ goOp op2 ++ rf)

/-- Scope.goSlice: the subscripted expression, then the slice shape; a
half-open slice becomes a two-bound index, an explicit step is a panic,
an index is a plain index, an extended slice is a panic. -/
def goSlice (fuel : Nat) (strict : Bool) (nm : PyExpr) (slice : Slicer) : TM Frag :=
  match fuel with
  | 0 => TM.throw Err.fuelOut
  | Nat.succ n => do
    let stmt ← goExpr n strict nm
    match slice with
    | Slicer.sliceS lower upper step => do
        let start ←
          match lower with
          | Option.some le => goExpr n strict le
          | Option.none => TM.pure []
        let stop ←
          match upper with
          | Option.some ue => goExpr n strict ue
          | Option.none => TM.pure []
        match step with
        | Option.some _ => TM.throw (Err.panicked "step index not implemented")
        | Option.none => TM.pure (stmt ++ indexOf [start, stop])
    | Slicer.indexS iv => do
        let ivf ← goExpr n strict iv
        TM.pure (stmt ++ indexOf [ivf])
    | Slicer.extSlice => TM.throw (Err.panicked "ExtSlice not implemented")

/-- Scope.goCall: the callee is translated first; a bare-name callee is
checked against the builtin table, an attribute callee against the
method table, and everything else goes to the generic tail. -/
def goCall (fuel : Nat) (strict : Bool) (fn : PyExpr) (args : List PyExpr) (keywords : List Keyword)
    (starargs kwargs : Option PyExpr) : TM Frag :=
  match fuel with
  | 0 => TM.throw Err.fuelOut
  | Nat.succ n => do
    let cfunc ← goExpr n strict fn
    match fn with
    | PyExpr.name fid =>
        if fid = "print" then
          callTail n strict [Tok.qual "fmt" "Println"] args keywords starargs kwargs
        else if fid = "open" then
          callTail n strict [Tok.qual "os" "Open"] args keywords starargs kwargs
        else if fid = "isinstance" then
          match args with
          | [a0, a1] => goIsinstance n strict a0 a1
          | other => callTail n strict cfunc other keywords starargs kwargs
        else if fid = "type" then
          callTail n strict [Tok.qual "reflect" "Type"] args keywords starargs kwargs
        else callTail n strict cfunc args keywords starargs kwargs
    | PyExpr.attribute av aattr =>
        goCallAttr n strict cfunc av aattr args keywords starargs kwargs
    | _ => callTail n strict cfunc args keywords starargs kwargs

/-- The two-argument isinstance rewrite of goCall: a synthesized closure
performing a type assertion and returning its success flag. -/
def goIsinstance (fuel : Nat) (strict : Bool) (a0 a1 : PyExpr) : TM Frag :=
  match fuel with
  | 0 => TM.throw Err.fuelOut
  | Nat.succ n => do
    let obj ← goExpr n strict a0
    let otype0 ← goExpr n strict a1
    let cmt := commentF "isinstance(%v, %v)" [obj, otype0]
    let otype ←
      match a1 with
      | PyExpr.attribute iv iattr => do
          let vf ← goExpr n strict iv
          TM.pure (commentF "/*%v*/" [vf] ++ goId iattr)
      | _ => TM.pure otype0
    TM.pure ([Tok.kw "func"] ++ callOf [] ++ [Tok.kw "bool"] ++ blockOf
      [cmt,
       [Tok.op "_", Tok.comma, Tok.id "ok", Tok.op ":="] ++ obj ++ [Tok.assertDot] ++ parensOf otype,
       [Tok.kw "return", Tok.id "ok"]] ++ callOf [])

/-- The attribute-callee switch of goCall: string/file method rewrites
(with early returns), the read/write/close receiver rewrites (falling
through to the sys/time checks), and the fallthrough. -/
def goCallAttr (fuel : Nat) (strict : Bool) (cfunc : Frag) (av : PyExpr) (aattr : String)
    (args : List PyExpr) (keywords : List Keyword) (starargs kwargs : Option PyExpr) : TM Frag :=
  match fuel with
  | 0 => TM.throw Err.fuelOut
  | Nat.succ n =>
    if aattr = "read" then do
      let v2 ← goExpr n strict av
      sysChecks n strict (v2 ++ [Tok.dot "Read"]) av aattr args keywords starargs kwargs
    else if aattr = "write" then do
      let v2 ← goExpr n strict av
      sysChecks n strict (v2 ++ [Tok.dot "Write"]) av aattr args keywords starargs kwargs
    else if aattr = "close" then do
      let v2 ← goExpr n strict av
      sysChecks n strict (v2 ++ [Tok.dot "Close"]) av aattr args keywords starargs kwargs
    else if aattr = "items" then
      goExpr n strict av
    else if aattr = "upper" then do
      let v2 ← goExpr n strict av
      TM.pure ([Tok.qual "strings" "ToUpper"] ++ callOf [v2])
    else if aattr = "lower" then do
      let v2 ← goExpr n strict av
      TM.pure ([Tok.qual "strings" "ToLower"] ++ callOf [v2])
    else if aattr = "startswith" then
      match args with
      | [a0] => do
          let v2 ← goExpr n strict av
          let f0 ← goExpr n strict a0
          TM.pure ([Tok.qual "strings" "HasPrefix"] ++ callOf [v2, f0])
      | other => sysChecks n strict cfunc av aattr other keywords starargs kwargs
    else if aattr = "endswith" then
      match args with
      | [a0] => do
          let v2 ← goExpr n strict av
          let f0 ← goExpr n strict a0
          TM.pure ([Tok.qual "strings" "HasSuffix"] ++ callOf [v2, f0])
      | other => sysChecks n strict cfunc av aattr other keywords starargs kwargs
    else if aattr = "strip" then
      match args with
      | [] => do
          let v2 ← goExpr n strict av
          TM.pure ([Tok.qual "strings" "TrimSpace"] ++ callOf [v2])
      | other => sysChecks n strict cfunc av aattr other keywords starargs kwargs
    else if aattr = "split" then
      match args with
      | [a0] => do
          let v2 ← goExpr n strict av
          let f0 ← goExpr n strict a0
          TM.pure ([Tok.qual "strings" "Split"] ++ callOf [v2, f0])
      | other => sysChecks n strict cfunc av aattr other keywords starargs kwargs
    else if aattr = "join" then
      match args with
      | [a0] => do
          let f0 ← goExpr n strict a0
          let v2 ← goExpr n strict av
          TM.pure ([Tok.qual "strings" "Join"] ++ callOf [f0, v2])
      | other => sysChecks n strict cfunc av aattr other keywords starargs kwargs
    else sysChecks n strict cfunc av aattr args keywords starargs kwargs

/-- The callee checks of Scope.goCall performed when the callee is an
attribute access whose base is a plain name: sys.exit, time.sleep and
time.time rewrites; otherwise the generic tail with the current cfunc. -/
def sysChecks (fuel : Nat) (strict : Bool) (cfuncNow : Frag) (av : PyExpr) (aattr : String)
    (args : List PyExpr) (keywords : List Keyword) (starargs kwargs : Option PyExpr) : TM Frag :=
  match fuel with
  | 0 => TM.throw Err.fuelOut
  | Nat.succ n =>
    match av with
    | PyExpr.name nid =>
        if nid = "sys" ∧ aattr = "exit" then do
          let ret ←
            match args with
            | [] => TM.pure [Tok.litInt (-1)]
            | a0 :: _ => goExpr n strict a0
          TM.pure ([Tok.qual "os" "Exit"] ++ callOf [ret])
        else if nid = "time" ∧ aattr = "sleep" then
          match args with
          | [a0] => do
              let f0 ← goExpr n strict a0
              let tt := [Tok.qual "time" "Duration"] ++
                parensOf (f0 ++ [Tok.op "*", Tok.kw "float64"] ++ parensOf [Tok.qual "time" "Second"])
              TM.pure ([Tok.qual "time" "Sleep"] ++ callOf [tt])
          | other => callTail n strict cfuncNow other keywords starargs kwargs
        else if nid = "time" ∧ aattr = "time" then
          match args with
          | [] => TM.pure ([Tok.qual "time" "Now"] ++ callOf [])
          | other => callTail n strict cfuncNow other keywords starargs kwargs
        else callTail n strict cfuncNow args keywords starargs kwargs
    | _ => callTail n strict cfuncNow args keywords starargs kwargs

/-- The generic tail of Scope.goCall: positional arguments, keyword
arguments as one comma list, then starargs/kwargs each annotated with an
expansion comment, composed into a call of cfunc. -/
def callTail (fuel : Nat) (strict : Bool) (cfunc : Frag) (args : List PyExpr)
    (keywords : List Keyword) (starargs kwargs : Option PyExpr) : TM Frag :=
  match fuel with
  | 0 => TM.throw Err.fuelOut
  | Nat.succ n => do
    let afs ← goExprEach n strict args
    let afs2 ←
      match keywords with
      | [] => TM.pure afs
      | kl => do
          let ks ← goKvalsEach n strict false kl
          TM.pure (afs ++ [listOf ks])
    let afs3 ←
      match starargs with
      | Option.some se => do
          let f ← goExpr n strict se
          TM.pure (afs2 ++ [f ++ commentOf "/*...*/"])
      | Option.none => TM.pure afs2
    let afs4 ←
      match kwargs with
      | Option.some ke => do
          let f ← goExpr n strict ke
          TM.pure (afs3 ++ [f ++ commentOf "/*...*/"])
      | Option.none => TM.pure afs3
    TM.pure (cfunc ++ callOf afs4)

/-- Element-wise translation of an expression list (Scope.goExprList and
the argument loops, which join the results with commas). -/
def goExprEach (fuel : Nat) (strict : Bool) (l : List PyExpr) : TM (List Frag) :=
  match fuel with
  | 0 => TM.throw Err.fuelOut
  | Nat.succ n =>
    match l with
    | [] => TM.pure []
    | e :: rest => do
        let f ← goExpr n strict e
        let fs ← goExprEach n strict rest
        TM.pure (f :: fs)

/-- The dict-literal entry loop (keys indexed against the value list). -/
def goDictItems (fuel : Nat) (strict : Bool) (keys : List PyExpr) (values : List PyExpr) : TM (List Frag) :=
  match fuel with
  | 0 => TM.throw Err.fuelOut
  | Nat.succ n =>
    match keys with
    | [] => TM.pure []
    | k :: kt =>
        match values with
        | [] => TM.throw Err.indexRange
        | v :: vt => do
            let kf ← goExpr n strict k
            let vf ← goExpr n strict v
            let rest ← goDictItems n strict kt vt
            TM.pure ((kf ++ [Tok.colon] ++ vf) :: rest)

/-- The boolean-operator fold of the BoolOp case. -/
def boolFold (fuel : Nat) (strict : Bool) (op : BoolOpKind) (values : List PyExpr) (acc : Frag) : TM Frag :=
  match fuel with
  | 0 => TM.throw Err.fuelOut
  | Nat.succ n =>
    match values with
    | [] => TM.pure acc
    | v :: rest => do
        let f ← goExpr n strict v
        boolFold n strict op rest (acc ++ goBoolOp op ++ f)

/-- The chained-comparison loop of the Compare case: stmt is the fragment
built so far, left the pending left operand, cached the previous
comparator's fragment (the source caches it in the variable right and
reuses its Clone as the next left operand). -/
def goCmpFold (fuel : Nat) (strict : Bool) (pairs : List (CmpKind × PyExpr))
    (stmt left : Frag) (cached : Option Frag) : TM Frag :=
  match fuel with
  | 0 => TM.throw Err.fuelOut
  | Nat.succ n =>
    match pairs with
    | [] => TM.pure stmt
    | (op, cmp) :: rest => do
        let stmt1 :=
          match cached with
          | Option.some _ => stmt ++ [Tok.op "&&"]
          | Option.none => stmt
        let left1 :=
          match cached with
          | Option.some r => r
          | Option.none => left
        let right ← goExpr n strict cmp
        let stmt2 :=
          if op = CmpKind.inCmp then stmt1 ++ goContainsF ++ callOf [right, left1]
          else if op = CmpKind.notInCmp then stmt1 ++ [Tok.op "!"] ++ goContainsF ++ callOf [right, left1]
          else stmt1 ++ left1 ++ goCmpOp op ++ right
        goCmpFold n strict rest stmt2 left1 (Option.some right)

/-- Scope.goKvals, element-wise: keyword arguments for definitions
(dfn = true) or calls (dfn = false). -/
def goKvalsEach (fuel : Nat) (strict : Bool) (dfn : Bool) (kk : List Keyword) : TM (List Frag) :=
  match fuel with
  | 0 => TM.throw Err.fuelOut
  | Nat.succ n =>
    match kk with
    | [] => TM.pure []
    | Keyword.mk arg value :: rest => do
        let vf ← goExpr n strict value
        let item :=
          if dfn then goId arg ++ commentF "/*=%v*/" [vf]
          else commentOf ("/*" ++ arg ++ "=*/") ++ vf
        let others ← goKvalsEach n strict dfn rest
        TM.pure (item :: others)

/-- Scope.goFunctionArguments: the synthesized parameter list and the
receiver argument (the first positional parameter when skipReceiver is
set).  The Kwarg branch reads args.Vararg.Annotation, dereferencing a
nil Vararg, exactly as the source does. -/
def goFunctionArguments (fuel : Nat) (strict : Bool) (argsO : Option Arguments) (skipReceiver : Bool) :
    TM (Frag × Option PyArg) :=
  match fuel with
  | 0 => TM.throw Err.fuelOut
  | Nat.succ n =>
    match argsO with
    | Option.none => TM.pure ([], Option.none)
    | Option.some (Arguments.mk args0 vararg kwonly kwdef kwarg) => do
        let ps1 ←
          match skipReceiver, args0 with
          | true, _ :: rest => argParams n strict rest
          | _, l => argParams n strict l
        let recv : Option PyArg :=
          match skipReceiver, args0 with
          | true, r :: _ => Option.some r
          | _, _ => Option.none
        let ps2 ← kwonlyParams n strict kwonly kwdef
        let ps3 ←
          match vararg with
          | Option.some (PyArg.mk vnm vann) => do
              addName vnm
              let base := goId vnm ++ commentOf "/*...*/"
              match vann with
              | Option.some ae => do
                  let f ← goExpr n strict ae
                  TM.pure [base ++ f]
              | Option.none => TM.pure [base ++ goAny]
          | Option.none => TM.pure []
        let ps4 ←
          match kwarg with
          | Option.some (PyArg.mk knm kann) => do
              addName knm
              let base := goId knm ++ commentOf "/*...*/"
              -- the source tests args.Vararg.Annotation here: nil Vararg crashes
              match vararg with
              | Option.none => TM.throw Err.nilPointer
              | Option.some (PyArg.mk _ vann2) =>
                  match vann2 with
                  | Option.some _ =>
                      match kann with
                      | Option.some ae => do
                          let f ← goExpr n strict ae
                          TM.pure [base ++ f]
                      | Option.none => do
                          let f ← liftE (unknown strict "EXPR" nilUVal)
                          TM.pure [base ++ f]
                  | Option.none => TM.pure [base ++ goAny]
          | Option.none => TM.pure []
        TM.pure (listOf (ps1 ++ ps2 ++ ps3 ++ ps4), recv)

/-- The positional-parameter loop of goFunctionArguments. -/
def argParams (fuel : Nat) (strict : Bool) (l : List PyArg) : TM (List Frag) :=
  match fuel with
  | 0 => TM.throw Err.fuelOut
  | Nat.succ n =>
    match l with
    | [] => TM.pure []
    | PyArg.mk nm ann :: rest => do
        addName nm
        let p ←
          match ann with
          | Option.some ae => do
              let f ← goExpr n strict ae
              TM.pure (goId nm ++ f)
          | Option.none => TM.pure (goId nm ++ goAny)
        let others ← argParams n strict rest
        TM.pure (p :: others)

/-- The keyword-only-parameter loop of goFunctionArguments: each
parameter carries a comment with its default, indexed against the
KwDefaults list (a missing default is an out-of-range index). -/
def kwonlyParams (fuel : Nat) (strict : Bool) (ka : List PyArg) (kd : List PyExpr) : TM (List Frag) :=
  match fuel with
  | 0 => TM.throw Err.fuelOut
  | Nat.succ n =>
    match ka with
    | [] => TM.pure []
    | PyArg.mk nm ann :: rest => do
        addName nm
        let p ←
          match ann with
          | Option.some ae => do
              let f ← goExpr n strict ae
              TM.pure (goId nm ++ f)
          | Option.none => TM.pure (goId nm ++ goAny)
        match kd with
        | [] => TM.throw Err.indexRange
        | d :: dt => do
            let df ← goExpr n strict d
            let others ← kwonlyParams n strict rest dt
            TM.pure ((p ++ commentF "/*=%v*/" [df]) :: others)

end

/-- Scope.goExprOrList: a tuple expression becomes a bare comma list,
anything else is translated normally. -/
def goExprOrList (fuel : Nat) (strict : Bool) (e : PyExpr) : TM Frag :=
  match e with
  | PyExpr.tuple elts => do
      let fs ← goExprEach fuel strict elts
      TM.pure (listOf fs)
  | _ => goExpr fuel strict e

/-- Scope.goAssign: the target and value fragments of an assignment. -/
def goAssign (fuel : Nat) (strict : Bool) (targets : List PyExpr) (value : PyExpr) : TM (Frag × Frag) :=
  match targets with
  | [t] => do
      let tf ← goExprOrList fuel strict t
      let vf ← goExprOrList fuel strict value
      TM.pure (tf, vf)
  | _ => do
      let fs ← goExprEach fuel strict targets
      let vf ← goExpr fuel strict value
      TM.pure (listOf fs, vf)

/-! ## The statement / body translator (pygor.go, Scope.parseBody)

Only the statement kinds embedded in Stmt are modelled; the generator
flag set by yield statements is dead code in the source (assigned and
discarded) and yield is not embedded.  The -lines flag is modelled as
unset.  The FunctionDef and ClassDef cases of the source's switch are
split into parseFunctionDef / parseClassDef.  The block is structurally
recursive on the same kind of step budget as the expression translator. -/

/-- pygor.go, func isNone. -/
def isNone : PyExpr → Bool
  | PyExpr.nameConstant PyConst.noneC => true
  | _ => false

/-- GoString rendering of a string-literal fragment (jen.Lit(msg)), as
used when an unknown diagnostic fragment is re-quoted into a comment. -/
def litGoString (msg : String) : String := "\"" ++ msg ++ "\""

/-- The decorator loops: each decorator becomes a comment carrying the
decorator expression (jen.Commentf over its GoString). -/
def decoComments (fuel : Nat) (strict : Bool) (fmt : String) (l : List PyExpr) : TM Unit :=
  match l with
  | [] => TM.pure ()
  | d :: rest => do
      let df ← goExpr fuel strict d
      addStmt (commentF fmt [df])
      decoComments fuel strict fmt rest

/-- Scope.newNames applied to the current chain (the side effect of
classifying assignment targets). -/
def applyNewNames (targets : List PyExpr) : TM Bool := fun st =>
  let r := newNames st.chain targets
  Except.ok (r.1, { st with chain := r.2 })

/-- The Delete statement loop (parseBody, case ast.Delete): a subscript
target with a plain index becomes a delete call; a subscript target with
any other slice shape is log.Panicf (the source formats the node dump
into the panic message; the dump is omitted here); any other target goes
through the unknown-construct handler and, in lenient mode, becomes a
comment. -/
def deleteTargets (fuel : Nat) (strict : Bool) : List PyExpr → TM Unit
  | [] => TM.pure ()
  | t :: rest =>
      match t with
      | PyExpr.subscript stv sl =>
          match sl with
          | Slicer.indexS iv => do
              let mf ← goExpr fuel strict stv
              let kf ← goExpr fuel strict iv
              addStmt ([Tok.kw "delete"] ++ callOf [mf, kf])
              deleteTargets fuel strict rest
          | _ => TM.throw (Err.panicked "unexpected DELETE")
      | _ =>
          match unknown strict "DELETE" (uvalOfExpr t) with
          | Except.error e => TM.throw e
          | Except.ok _ => do
              addStmt (commentOf (litGoString (unknownMsg "DELETE" (uvalOfExpr t))))
              deleteTargets fuel strict rest

mutual

/-- Scope.parseBody: translate a statement sequence in the current
scope, returning the accumulated fragment (Scope.Render). -/
def parseBody (fuel : Nat) (strict : Bool) (classname : String) (body : List Stmt) : TM Frag :=
  match fuel with
  | 0 => TM.throw Err.fuelOut
  | Nat.succ n => do
    parseSeq n strict classname true body
    renderScope

/-- The statement loop of parseBody: a jen.Line between consecutive
statements, then each statement. -/
def parseSeq (fuel : Nat) (strict : Bool) (classname : String) (first : Bool) (body : List Stmt) : TM Unit :=
  match fuel with
  | 0 => TM.throw Err.fuelOut
  | Nat.succ n =>
    match body with
    | [] => TM.pure ()
    | s1 :: rest => do
        if first then TM.pure () else addStmt [Tok.line]
        parseStmtTop n strict classname s1
        parseSeq n strict classname false rest

/-- One statement of parseBody: the doc-string pre-check followed by the
per-kind switch. -/
def parseStmtTop (fuel : Nat) (strict : Bool) (classname : String) (stmt : Stmt) : TM Unit :=
  match fuel with
  | 0 => TM.throw Err.fuelOut
  | Nat.succ n =>
    match stmt with
    | Stmt.exprStmt v =>
        match v with
        | PyExpr.str sdoc =>
            -- a top level string expression is a doc string
            addStmt (commentOf sdoc ++ [Tok.line])
        | _ => do
            let f ← goExpr n strict v
            addStmt f
    | Stmt.functionDef nm fargs fbody decorators rets =>
        parseFunctionDef n strict classname nm fargs fbody decorators rets
    | Stmt.classDef nm bases kws cbody decorators =>
        parseClassDef n strict nm bases kws cbody decorators
    | Stmt.assign targets value => do
        let tv ← goAssign n strict targets value
        let base := tv.1 ++ [Tok.op "="] ++ tv.2
        if classname != "" then
          addStmt ([Tok.kw "var"] ++ commentOf ("/*" ++ classname ++ "*/") ++ base)
        else do
          let isNew ← applyNewNames targets
          if isNew then addStmt ([Tok.kw "var"] ++ base)
          else addStmt base
    | Stmt.augAssign target op value => do
        let tf ← goExpr n strict target
        let vf ← goExpr n strict value
        addStmt (tf ++ goOpExt op "=" ++ vf)
    | Stmt.pass => addStmt (commentOf "pass")
    | Stmt.returnS v =>
        match v with
        | Option.none => addStmt [Tok.kw "return"]
        | Option.some ve => do
            let f ← goExprOrList n strict ve
            addStmt ([Tok.kw "return"] ++ f)
    | Stmt.assertS test msg =>
        match msg with
        | Option.some m => do
            let tf ← goExpr n strict test
            let mf ← goExpr n strict m
            addStmt ([Tok.id "Assert"] ++ callOf [tf, mf])
        | Option.none => do
            let tf ← goExpr n strict test
            addStmt ([Tok.id "Assert"] ++ callOf [tf, [Tok.litStr ""]])
    | Stmt.delete targets => deleteTargets n strict targets
    | Stmt.unmappedS u =>
        match unknown strict "STMT" u with
        | Except.error e => TM.throw e
        | Except.ok _ => addStmt (commentOf (litGoString (unknownMsg "STMT" u)))

/-- The FunctionDef case of parseBody: decorator comments, a child scope
for parameters and body, the receiver when inside a class (with the
String special case for a source stringification method), top-level
declaration versus assigned closure by nesting level, and the body block. -/
def parseFunctionDef (fuel : Nat) (strict : Bool) (classname nm : String) (fargs : Option Arguments)
    (fbody : List Stmt) (decorators : List PyExpr) (rets : Option PyExpr) : TM Unit :=
  match fuel with
  | 0 => TM.throw Err.fuelOut
  | Nat.succ n => do
    decoComments n strict "// @%v\n" decorators
    let cur ← getCur
    pushScope
    let ar ← goFunctionArguments n strict fargs (classname != "")
    let receiver : Option Frag :=
      match ar.2 with
      | Option.some rv => Option.some (callOf [goId rv.arg ++ [Tok.op "*", Tok.id classname]])
      | Option.none => Option.none
    let rets0 : Option Frag ←
      match rets with
      | Option.some re =>
          if isNone re then TM.pure Option.none
          else do
            let f ← goExprOrList n strict re
            TM.pure (Option.some (callOf [f]))
      | Option.none => TM.pure Option.none
    let hr : Frag × Option Frag :=
      match receiver with
      | Option.some rc =>
          if nm = "__str__" then
            ([Tok.kw "func"] ++ rc ++ [Tok.id "String"], Option.some (callOf [[Tok.id "string"]]))
          else ([Tok.kw "func"] ++ rc ++ goId nm, rets0)
      | Option.none =>
          if cur.level < 1 then ([Tok.kw "func"] ++ goId nm, rets0)
          else (goId nm ++ [Tok.op ":="] ++ [Tok.kw "func"], rets0)
    let head2 := hr.1 ++ callOf [ar.1]
    let head3 :=
      match hr.2 with
      | Option.some r => head2 ++ r
      | Option.none => head2
    let parsed ← parseBody n strict "" fbody
    popScope
    addStmt (head3 ++ blockOf [parsed] ++ [Tok.line])

/-- The ClassDef case of parseBody: a child scope, the struct fragment
whose items come from the class body (with base classes and keywords as
a leading comment), decorator comments, the struct appended to the
outer scope, then the pop that flushes the buffered methods. -/
def parseClassDef (fuel : Nat) (strict : Bool) (nm : String) (bases : List PyExpr) (kws : List Keyword)
    (cbody : List Stmt) (decorators : List PyExpr) : TM Unit :=
  match fuel with
  | 0 => TM.throw Err.fuelOut
  | Nat.succ n => do
    pushScope
    let items0 ←
      match bases with
      | [] => TM.pure ([] : List Frag)
      | bl => do
          let fs ← atParent (goExprEach n strict bl)
          TM.pure [listOf fs]
    let items1 ←
      match kws with
      | [] => TM.pure ([] : List Frag)
      | kl => do
          let ks ← atParent (goKvalsEach n strict true kl)
          TM.pure [listOf ks]
    let cdefs := items0 ++ items1
    let headItems : List Frag :=
      match cdefs with
      | [] => []
      | _ => [commentF "%v" cdefs]
    let items ← classItems n strict nm cbody
    let structFrag := [Tok.kw "type"] ++ goId nm ++ [Tok.kw "struct"]
      ++ [Tok.lbrace] ++ joinFrags [Tok.line] (headItems ++ items) ++ [Tok.rbrace] ++ [Tok.line]
    atParent (decoComments n strict "@%v\n" decorators)
    atParent (addStmt structFrag)
    popScope

/-- The class-body loop of the ClassDef case: pass is skipped, a string
expression becomes a comment, an assignment becomes a struct field with
the default value in a comment, a method definition is translated (in
the class scope) and buffered into the outer scope's pending methods,
and anything else is a fatal error. -/
def classItems (fuel : Nat) (strict : Bool) (classname : String) (cbody : List Stmt) : TM (List Frag) :=
  match fuel with
  | 0 => TM.throw Err.fuelOut
  | Nat.succ n =>
    match cbody with
    | [] => TM.pure []
    | pst :: rest =>
        match pst with
        | Stmt.pass => classItems n strict classname rest
        | Stmt.exprStmt v =>
            match v with
            | PyExpr.str sdoc => do
                let others ← classItems n strict classname rest
                TM.pure (commentOf sdoc :: others)
            | _ => TM.throw (Err.fatalError "unexpected expression in class definition")
        | Stmt.assign targets value => do
            let tv ← atParent (goAssign n strict targets value)
            let others ← classItems n strict classname rest
            TM.pure ((tv.1 ++ goAny ++ commentF "= %#v" [tv.2]) :: others)
        | Stmt.functionDef fnm fargs fbody fdecs frets => do
            -- ss.parseBody(classname, single method statement)
            parseStmtTop n strict classname (Stmt.functionDef fnm fargs fbody fdecs frets)
            let mfrag ← renderScope
            atParent (modifyCur fun c => { c with methods := c.methods ++ [mfrag] })
            classItems n strict classname rest
        | _ => TM.throw (Err.fatalError "unexpected statement in class definition")

end

/-! ## General helpers for the verification -/

/-- The initial translator state of a module: one fresh root scope and
an empty import map (main: scope := NewScope(...)). -/
def initState : TState := { chain := [newScope], imports := [] }

/-- Number of (possibly overlapping) occurrences of a token pattern as a
contiguous sublist. -/
def countSublist (pat : List Tok) (l : List Tok) : Nat :=
  match l with
  | [] => 0
  | _ :: t => (if pat.isPrefixOf l then 1 else 0) + countSublist pat t

theorem TM.bind_ok {α β : Type} {x : TM α} {st st1 : TState} {a : α} (f : α → TM β)
    (h : x st = Except.ok (a, st1)) : TM.bind x f st = f a st1 := by
  unfold TM.bind
  rw [h]

theorem TM.bind_err {α β : Type} {x : TM α} {st : TState} {e : Err} (f : α → TM β)
    (h : x st = Except.error e) : TM.bind x f st = Except.error e := by
  unfold TM.bind
  rw [h]

theorem TM.bind_ok_iff {α β : Type} (x : TM α) (f : α → TM β) (st : TState) (r : β × TState) :
    TM.bind x f st = Except.ok r ↔ ∃ a st1, x st = Except.ok (a, st1) ∧ f a st1 = Except.ok r := by
  constructor
  · intro hb
    unfold TM.bind at hb
    cases h : x st with
    | error e =>
        simp only [h] at hb
        exact (Except.noConfusion hb)
    | ok p =>
        cases p with
        | mk a1 s1 =>
            simp only [h] at hb
            exact ⟨a1, s1, rfl, hb⟩
  · rintro ⟨a, st1, hx, hf⟩
    unfold TM.bind
    rw [hx]
    exact hf

/-! ## Claim theorems -/

/-- Claim C10 (confirmed): the comparison-operator table maps the
identity operators to the same target tokens as the equality operators,
so for any two expressions the translation of an identity comparison is
identical (same fragment, same final state) to that of the corresponding
equality comparison — identity semantics are not distinguished. -/
theorem is_translates_as_eq (fuel : Nat) (strict : Bool) (a b : PyExpr) (st : TState) :
    goExpr fuel strict (PyExpr.compare a [(CmpKind.isCmp, b)]) st
        = goExpr fuel strict (PyExpr.compare a [(CmpKind.eq, b)]) st
    ∧ goExpr fuel strict (PyExpr.compare a [(CmpKind.isNotCmp, b)]) st
        = goExpr fuel strict (PyExpr.compare a [(CmpKind.notEq, b)]) st
    ∧ goCmpOp CmpKind.isCmp = goCmpOp CmpKind.eq
    ∧ goCmpOp CmpKind.isNotCmp = goCmpOp CmpKind.notEq := by
  refine ⟨?_, ?_, rfl, rfl⟩ <;>
    · cases fuel with
      | zero => rfl
      | succ n =>
          cases n with
          | zero => rfl
          | succ m => rfl

/-- Claim C5 (code_bug): the source's dedicated Invert branch builds the
parenthesized (operand + 1) in order to synthesize the negation of
(operand + 1), but obtains its operator from goUnary applied to Invert,
which has no Invert entry and falls through to the unknown-construct
handler.  Hence the bitwise complement of x emits an UNKNOWN-UNARY
diagnostic literal applied to (x + 1) in lenient mode — not a unary
negation — and aborts translation in strict mode. -/
theorem invert_emits_unknown_not_negation :
    goExpr 99 false (PyExpr.unaryOp UnaryKind.invert (PyExpr.name "x")) initState
      = Except.ok ([Tok.litStr "UNKNOWN-UNARY: string \"Invert\"",
          Tok.lparen, Tok.id "x", Tok.op "+", Tok.litInt 1, Tok.rparen], initState)
    ∧ goExpr 99 true (PyExpr.unaryOp UnaryKind.invert (PyExpr.name "x")) initState
      = Except.error (Err.panicked "UNKNOWN-UNARY: string \"Invert\"")
    ∧ goUnary false UnaryKind.invert
      = Except.ok [Tok.litStr "UNKNOWN-UNARY: string \"Invert\""]
    ∧ goUnary false UnaryKind.uSub = Except.ok [Tok.op "-"] :=
  ⟨rfl, rfl, rfl, rfl⟩

/-- Claim C2 (code_bug): in lenient mode (strict flag off) the
expression translator is not total: for a function-parameter shape with
a kwargs parameter and no vararg parameter, goFunctionArguments reads
args.Vararg.Annotation inside the Kwarg branch, dereferencing a nil
Vararg, so translating a lambda with such parameters crashes instead of
producing a fragment. -/
theorem lenient_goExpr_crashes_on_kwargs_without_vararg :
    goExpr 99 false
      (PyExpr.lambda
        (Option.some (Arguments.mk [] Option.none [] [] (Option.some (PyArg.mk "kwargs" Option.none))))
        (PyExpr.name "x")) initState
      = Except.error Err.nilPointer
    ∧ goFunctionArguments 99 false
        (Option.some (Arguments.mk [] Option.none [] [] (Option.some (PyArg.mk "kwargs" Option.none))))
        false initState
      = Except.error Err.nilPointer :=
  ⟨rfl, rfl⟩

/-- Claim C7 (confirmed): the unknown-construct handler produces a
diagnostic containing the node's dynamic type tag and, when the node is
an expression (carries a position), its line and column; in lenient mode
the diagnostic becomes a literal fragment and translation continues
(the expression translator returns it as an ok fragment), while in
strict mode the handler aborts with the same diagnostic. -/
theorem unknown_handler_claim (typ : String) (v : UVal) :
    unknown true typ v = Except.error (Err.panicked (unknownMsg typ v))
    ∧ unknown false typ v = Except.ok [Tok.litStr (unknownMsg typ v)]
    ∧ (∃ pre post, unknownMsg typ v = pre ++ v.typeTag ++ post)
    ∧ (∀ l c : Int, v.pos = Option.some (l, c) →
        ∃ pre, unknownMsg typ v = pre ++ (" at line " ++ toString l ++ ", col " ++ toString c))
    ∧ (∀ (fuel : Nat) (st : TState),
        goExpr (fuel + 1) false (PyExpr.unmappedE v) st
          = Except.ok ([Tok.litStr (unknownMsg "EXPR" v)], st)
        ∧ goExpr (fuel + 1) true (PyExpr.unmappedE v) st
          = Except.error (Err.panicked (unknownMsg "EXPR" v))) := by
  refine ⟨rfl, rfl, ?_, ?_, ?_⟩
  · refine ⟨"UNKNOWN-" ++ typ ++ ": ", ?_⟩
    unfold unknownMsg
    cases hv : v.pos with
    | none =>
        exact ⟨" " ++ v.dump, by simp [String.append_assoc]⟩
    | some lc =>
        exact ⟨" " ++ v.dump ++ " at line " ++ toString lc.1 ++ ", col " ++ toString lc.2,
          by simp [String.append_assoc]⟩
  · intro l c hp
    refine ⟨"UNKNOWN-" ++ typ ++ ": " ++ v.typeTag ++ " " ++ v.dump, ?_⟩
    unfold unknownMsg
    rw [hp]
    simp [String.append_assoc]
  · intro fuel st
    exact ⟨rfl, rfl⟩

/-- Witness for C7 at a concrete unmapped node carrying position
line 3, col 7. -/
theorem unknown_handler_claim_witness :
    unknown false "EXPR" { typeTag := "*ast.Starred", dump := "dmp", pos := Option.some (3, 7) }
      = Except.ok [Tok.litStr "UNKNOWN-EXPR: *ast.Starred dmp at line 3, col 7"]
    ∧ ∃ pre, unknownMsg "EXPR" { typeTag := "*ast.Starred", dump := "dmp", pos := Option.some (3, 7) }
        = pre ++ (" at line " ++ toString (3 : Int) ++ ", col " ++ toString (7 : Int)) := by
  refine ⟨rfl, ?_⟩
  exact (unknown_handler_claim "EXPR"
    { typeTag := "*ast.Starred", dump := "dmp", pos := Option.some (3, 7) }).2.2.2.1 3 7 rfl

/-- A bind chain ending in a throw never succeeds. -/
theorem throwChain3 {α β γ : Type} (x : TM α) (A : α → TM β) (B : α → β → TM γ) (er : Err)
    (st : TState) (p : Frag × TState) :
    TM.bind x (fun s1 => TM.bind (A s1) (fun s2 => TM.bind (B s1 s2) (fun _ => TM.throw er))) st
      ≠ Except.ok p := by
  intro h
  obtain ⟨a1, s1, _, h2⟩ := (TM.bind_ok_iff _ _ _ _).mp h
  obtain ⟨a2, s2, _, h3⟩ := (TM.bind_ok_iff _ _ _ _).mp h2
  obtain ⟨a3, s3, _, h4⟩ := (TM.bind_ok_iff _ _ _ _).mp h3
  exact Except.noConfusion h4

/-- Claim C6 (confirmed): a subscript whose slice carries an explicit
step never yields a fragment — the result is an abort for every budget
and in both modes — and, concretely, the abort is the fatal
"step index not implemented" panic in both modes. -/
theorem slice_step_always_fatal :
    (∀ (fuel : Nat) (strict : Bool) (v lo hi stepE : PyExpr) (st : TState),
      ∃ e, goExpr fuel strict
            (PyExpr.subscript v (Slicer.sliceS (Option.some lo) (Option.some hi) (Option.some stepE))) st
          = Except.error e)
    ∧ (∀ (fuel : Nat) (strict : Bool) (v : PyExpr) (lo hi : Option PyExpr) (stepE : PyExpr) (st : TState),
      ∃ e, goExpr fuel strict (PyExpr.subscript v (Slicer.sliceS lo hi (Option.some stepE))) st
          = Except.error e)
    ∧ (∀ strict : Bool,
        goExpr 99 strict
          (PyExpr.subscript (PyExpr.name "x")
            (Slicer.sliceS Option.none Option.none (Option.some (PyExpr.num 2)))) initState
          = Except.error (Err.panicked "step index not implemented")) := by
  have general : ∀ (fuel : Nat) (strict : Bool) (v : PyExpr) (lo hi : Option PyExpr)
      (stepE : PyExpr) (st : TState),
      ∃ e, goExpr fuel strict (PyExpr.subscript v (Slicer.sliceS lo hi (Option.some stepE))) st
          = Except.error e := by
    intro fuel strict v lo hi stepE st
    cases h : goExpr fuel strict (PyExpr.subscript v (Slicer.sliceS lo hi (Option.some stepE))) st with
    | error e => exact ⟨e, rfl⟩
    | ok p =>
        exfalso
        cases fuel with
        | zero => exact Except.noConfusion h
        | succ n =>
            cases n with
            | zero => exact Except.noConfusion h
            | succ m =>
                cases lo with
                | none =>
                    cases hi with
                    | none =>
                        have h2 : TM.bind (goExpr m strict v)
                            (fun stmt => TM.bind (TM.pure ([] : Frag))
                              (fun start => TM.bind (TM.pure ([] : Frag))
                                (fun stop => TM.throw (Err.panicked "step index not implemented")))) st
                            = Except.ok p := h
                        exact throwChain3 _ _ _ _ st p h2
                    | some ue =>
                        have h2 : TM.bind (goExpr m strict v)
                            (fun stmt => TM.bind (TM.pure ([] : Frag))
                              (fun start => TM.bind (goExpr m strict ue)
                                (fun stop => TM.throw (Err.panicked "step index not implemented")))) st
                            = Except.ok p := h
                        exact throwChain3 _ _ _ _ st p h2
                | some le =>
                    cases hi with
                    | none =>
                        have h2 : TM.bind (goExpr m strict v)
                            (fun stmt => TM.bind (goExpr m strict le)
                              (fun start => TM.bind (TM.pure ([] : Frag))
                                (fun stop => TM.throw (Err.panicked "step index not implemented")))) st
                            = Except.ok p := h
                        exact throwChain3 _ _ _ _ st p h2
                    | some ue =>
                        have h2 : TM.bind (goExpr m strict v)
                            (fun stmt => TM.bind (goExpr m strict le)
                              (fun start => TM.bind (goExpr m strict ue)
                                (fun stop => TM.throw (Err.panicked "step index not implemented")))) st
                            = Except.ok p := h
                        exact throwChain3 _ _ _ _ st p h2
  refine ⟨fun fuel strict v lo hi stepE st => general fuel strict v (Option.some lo) (Option.some hi) stepE st,
    general, ?_⟩
  intro strict
  cases strict with
  | false => rfl
  | true => rfl

/-- A zero-argument call, as in the spec's chained-comparison example. -/
def call0 (s : String) : PyExpr :=
  PyExpr.call (PyExpr.name s) [] [] Option.none Option.none

/-- A one-parameter lambda, whose translation marks its parameter as a
known name in the current scope — an observable side effect that occurs
once per translator invocation on the lambda. -/
def lamX : PyExpr :=
  PyExpr.lambda (Option.some (Arguments.mk [PyArg.mk "x" Option.none] Option.none [] [] Option.none))
    (PyExpr.num 1)

/-- Counterexample to claim C1 as stated: translating the chain
a() less-than b() less-than c() emits the conjunction
a() < b() && b() < c(), in which the fragment invoking b() occurs twice
(once per pairwise comparison), not exactly once. -/
theorem chained_comparison_counterexample :
    goExpr 99 false (PyExpr.compare (call0 "a") [(CmpKind.lt, call0 "b"), (CmpKind.lt, call0 "c")]) initState
      = Except.ok ([Tok.id "a", Tok.lparen, Tok.rparen, Tok.op "<",
          Tok.id "b", Tok.lparen, Tok.rparen, Tok.op "&&",
          Tok.id "b", Tok.lparen, Tok.rparen, Tok.op "<",
          Tok.id "c", Tok.lparen, Tok.rparen], initState)
    ∧ countSublist [Tok.id "b", Tok.lparen, Tok.rparen]
        [Tok.id "a", Tok.lparen, Tok.rparen, Tok.op "<",
         Tok.id "b", Tok.lparen, Tok.rparen, Tok.op "&&",
         Tok.id "b", Tok.lparen, Tok.rparen, Tok.op "<",
         Tok.id "c", Tok.lparen, Tok.rparen] = 2 := by
  exact ⟨rfl, by decide⟩

/-- Claim C1 as amended: a two-operator comparison chain is emitted as a
left-to-right conjunction of pairwise comparisons joined by the
conjunction operator; the intermediate comparator's fragment is derived
by a single invocation of the expression translator (the state is
threaded through exactly one translation of b, hypothesis hb) and the
cached fragment is reused as the left operand of the next pair, so the
fragment appears twice in the emitted conjunction — once as the right
operand of the first pair and once as the left operand of the second —
rather than being re-derived. -/
theorem chained_comparison_amended (n : Nat) (strict : Bool) (a b c : PyExpr)
    (op1 op2 : CmpKind) (st st1 st2 st3 : TState) (fa fb fc : Frag)
    (h1 : op1 ≠ CmpKind.inCmp) (h2 : op1 ≠ CmpKind.notInCmp)
    (h3 : op2 ≠ CmpKind.inCmp) (h4 : op2 ≠ CmpKind.notInCmp)
    (ha : goExpr (n + 3) strict a st = Except.ok (fa, st1))
    (hb : goExpr (n + 2) strict b st1 = Except.ok (fb, st2))
    (hc : goExpr (n + 1) strict c st2 = Except.ok (fc, st3)) :
    goExpr (n + 4) strict (PyExpr.compare a [(op1, b), (op2, c)]) st
      = Except.ok (fa ++ goCmpOp op1 ++ fb ++ [Tok.op "&&"] ++ fb ++ goCmpOp op2 ++ fc, st3) := by
  have e0 : goExpr (n + 4) strict (PyExpr.compare a [(op1, b), (op2, c)]) st
      = TM.bind (goExpr (n + 3) strict a)
          (fun lf => goCmpFold (n + 3) strict [(op1, b), (op2, c)] [] lf Option.none) st := rfl
  rw [e0, TM.bind_ok _ ha]
  have e1 : goCmpFold (n + 3) strict [(op1, b), (op2, c)] [] fa Option.none st1
      = TM.bind (goExpr (n + 2) strict b)
          (fun right => goCmpFold (n + 2) strict [(op2, c)]
            (if op1 = CmpKind.inCmp then [] ++ goContainsF ++ callOf [right, fa]
             else if op1 = CmpKind.notInCmp then [] ++ [Tok.op "!"] ++ goContainsF ++ callOf [right, fa]
             else [] ++ fa ++ goCmpOp op1 ++ right)
            fa (Option.some right)) st1 := rfl
  rw [e1, TM.bind_ok _ hb, if_neg h1, if_neg h2]
  have e2 : goCmpFold (n + 2) strict [(op2, c)] ([] ++ fa ++ goCmpOp op1 ++ fb) fa (Option.some fb) st2
      = TM.bind (goExpr (n + 1) strict c)
          (fun right => goCmpFold (n + 1) strict []
            (if op2 = CmpKind.inCmp then ([] ++ fa ++ goCmpOp op1 ++ fb) ++ [Tok.op "&&"] ++ goContainsF ++ callOf [right, fb]
             else if op2 = CmpKind.notInCmp then ([] ++ fa ++ goCmpOp op1 ++ fb) ++ [Tok.op "&&"] ++ [Tok.op "!"] ++ goContainsF ++ callOf [right, fb]
             else ([] ++ fa ++ goCmpOp op1 ++ fb) ++ [Tok.op "&&"] ++ fb ++ goCmpOp op2 ++ right)
            fb (Option.some right)) st2 := rfl
  rw [e2, TM.bind_ok _ hc, if_neg h3, if_neg h4]
  have e3 : goCmpFold (n + 1) strict []
      (([] ++ fa ++ goCmpOp op1 ++ fb) ++ [Tok.op "&&"] ++ fb ++ goCmpOp op2 ++ fc)
      fb (Option.some fc) st3
      = Except.ok ((([] ++ fa ++ goCmpOp op1 ++ fb) ++ [Tok.op "&&"] ++ fb ++ goCmpOp op2 ++ fc), st3) := rfl
  rw [e3]
  simp [List.append_assoc]

/-- Witness for the amended C1 at concrete inputs, with a lambda as the
intermediate comparator: the lambda's parameter x is recorded in the
scope's name set exactly once, witnessing the single derivation, while
the lambda's fragment appears twice in the emitted conjunction. -/
theorem chained_comparison_amended_witness :
    goExpr 99 false (PyExpr.compare (call0 "a") [(CmpKind.lt, lamX), (CmpKind.lt, call0 "c")]) initState
      = Except.ok ([Tok.id "a", Tok.lparen, Tok.rparen, Tok.op "<",
          Tok.kw "func", Tok.lparen, Tok.id "x", Tok.qual "github.com/raff/pygor/runtime" "Any",
          Tok.rparen, Tok.lbrace, Tok.litInt 1, Tok.rbrace, Tok.lparen, Tok.rparen,
          Tok.op "&&",
          Tok.kw "func", Tok.lparen, Tok.id "x", Tok.qual "github.com/raff/pygor/runtime" "Any",
          Tok.rparen, Tok.lbrace, Tok.litInt 1, Tok.rbrace, Tok.lparen, Tok.rparen,
          Tok.op "<", Tok.id "c", Tok.lparen, Tok.rparen],
          { chain := [{ level := 0, vars := ["x"], parsed := [], body := [], methods := [] }],
            imports := [] }) := by
  have h := chained_comparison_amended 95 false (call0 "a") lamX (call0 "c")
    CmpKind.lt CmpKind.lt initState initState
    { chain := [{ level := 0, vars := ["x"], parsed := [], body := [], methods := [] }], imports := [] }
    { chain := [{ level := 0, vars := ["x"], parsed := [], body := [], methods := [] }], imports := [] }
    [Tok.id "a", Tok.lparen, Tok.rparen]
    [Tok.kw "func", Tok.lparen, Tok.id "x", Tok.qual "github.com/raff/pygor/runtime" "Any",
     Tok.rparen, Tok.lbrace, Tok.litInt 1, Tok.rbrace, Tok.lparen, Tok.rparen]
    [Tok.id "c", Tok.lparen, Tok.rparen]
    (by decide) (by decide) (by decide) (by decide) rfl rfl rfl
  exact h

/-- The translator state after exactly one statement fragment has been
added to a fresh module root scope. -/
def oneStmtState (f : Frag) : TState :=
  { chain := [{ level := 0, vars := [], parsed := f, body := [f], methods := [] }], imports := [] }

/-- Counterexample to claim C9 as stated: for an assert statement that
carries no explicit message, the synthesized message argument is the
empty string literal, not the condition's source text — asserts over the
distinct conditions x and y are emitted with the same empty-string
message. -/
theorem assert_missing_message_counterexample :
    parseStmtTop 99 false "" (Stmt.assertS (PyExpr.name "x") Option.none) initState
      = Except.ok ((), oneStmtState [Tok.id "Assert", Tok.lparen, Tok.id "x", Tok.comma, Tok.litStr "", Tok.rparen])
    ∧ parseStmtTop 99 false "" (Stmt.assertS (PyExpr.name "y") Option.none) initState
      = Except.ok ((), oneStmtState [Tok.id "Assert", Tok.lparen, Tok.id "y", Tok.comma, Tok.litStr "", Tok.rparen]) := by
  exact ⟨rfl, rfl⟩

/-- Claim C9 as amended: an assert statement is emitted as a call to the
runtime assertion helper Assert taking the translated condition and a
message argument; when the source assert carries an explicit message,
that message's translation is passed; when it carries no message, the
message argument is the empty string literal (not the condition's source
text). -/
theorem assert_translation_amended (n : Nat) (strict : Bool) :
    (∀ (test m : PyExpr) (st st1 : TState) (tf mf : Frag) (c : Scope)
        (rest : List Scope) (imps : List (String × String)),
      goExpr n strict test st = Except.ok (tf, st1) →
      goExpr n strict m st1 = Except.ok (mf, ⟨c :: rest, imps⟩) →
      parseStmtTop (n + 1) strict "" (Stmt.assertS test (Option.some m)) st
        = Except.ok ((), ⟨{ c with
            parsed := c.parsed ++ ([Tok.id "Assert"] ++ callOf [tf, mf]),
            body := c.body ++ [[Tok.id "Assert"] ++ callOf [tf, mf]] } :: rest, imps⟩))
    ∧ (∀ (test : PyExpr) (st : TState) (tf : Frag) (c : Scope)
        (rest : List Scope) (imps : List (String × String)),
      goExpr n strict test st = Except.ok (tf, ⟨c :: rest, imps⟩) →
      parseStmtTop (n + 1) strict "" (Stmt.assertS test Option.none) st
        = Except.ok ((), ⟨{ c with
            parsed := c.parsed ++ ([Tok.id "Assert"] ++ callOf [tf, [Tok.litStr ""]]),
            body := c.body ++ [[Tok.id "Assert"] ++ callOf [tf, [Tok.litStr ""]]] } :: rest, imps⟩)) := by
  constructor
  · intro test m st st1 tf mf c rest imps ht hm
    have e0 : parseStmtTop (n + 1) strict "" (Stmt.assertS test (Option.some m)) st
        = TM.bind (goExpr n strict test)
            (fun tf2 => TM.bind (goExpr n strict m)
              (fun mf2 => addStmt ([Tok.id "Assert"] ++ callOf [tf2, mf2]))) st := rfl
    rw [e0, TM.bind_ok _ ht, TM.bind_ok _ hm]
    rfl
  · intro test st tf c rest imps ht
    have e0 : parseStmtTop (n + 1) strict "" (Stmt.assertS test Option.none) st
        = TM.bind (goExpr n strict test)
            (fun tf2 => addStmt ([Tok.id "Assert"] ++ callOf [tf2, [Tok.litStr ""]])) st := rfl
    rw [e0, TM.bind_ok _ ht]
    rfl

/-- Witness for the amended C9 at concrete inputs: an assert with
explicit message "hi" passes that message, and an assert without one
passes the empty string literal. -/
theorem assert_translation_amended_witness :
    parseStmtTop 99 false "" (Stmt.assertS (PyExpr.name "x") (Option.some (PyExpr.str "hi"))) initState
      = Except.ok ((), oneStmtState [Tok.id "Assert", Tok.lparen, Tok.id "x", Tok.comma, Tok.litStr "hi", Tok.rparen])
    ∧ parseStmtTop 99 false "" (Stmt.assertS (PyExpr.name "z") Option.none) initState
      = Except.ok ((), oneStmtState [Tok.id "Assert", Tok.lparen, Tok.id "z", Tok.comma, Tok.litStr "", Tok.rparen]) := by
  have ha := (assert_translation_amended 98 false).1 (PyExpr.name "x") (PyExpr.str "hi")
    initState initState [Tok.id "x"] [Tok.litStr "hi"]
    { level := 0, vars := [], parsed := [], body := [], methods := [] } [] [] rfl rfl
  have hb := (assert_translation_amended 98 false).2 (PyExpr.name "z")
    initState [Tok.id "z"]
    { level := 0, vars := [], parsed := [], body := [], methods := [] } [] [] rfl
  exact ⟨ha, hb⟩

/-- Counterexample to claim C8 as stated: in lenient mode a delete whose
target is a plain name — not a subscripted collection element — is not a
fatal error: translation continues and the statement becomes a comment
carrying the unknown-construct diagnostic. -/
theorem delete_nonsubscript_counterexample :
    parseStmtTop 99 false "" (Stmt.delete [PyExpr.name "x"]) initState
      = Except.ok ((), oneStmtState
          [Tok.cmtl "\"UNKNOWN-DELETE: *ast.Name  at line 0, col 0\"", Tok.cmtr]) := rfl

/-- Claim C8 as amended: a delete of a subscripted collection element
with a plain index becomes a collection delete call; a delete of a
subscript with any other slice shape (a range slice or an extended
slice) is a fatal error in both modes; a delete of any other target goes
through the unknown-construct handler — in strict mode that aborts
translation, but in lenient mode it produces a diagnostic comment and
translation continues. -/
theorem delete_translation_amended (n : Nat) (strict : Bool) :
    (∀ (stv iv : PyExpr) (st st1 : TState) (tf kf : Frag) (c : Scope)
        (rest : List Scope) (imps : List (String × String)),
      goExpr n strict stv st = Except.ok (tf, st1) →
      goExpr n strict iv st1 = Except.ok (kf, ⟨c :: rest, imps⟩) →
      parseStmtTop (n + 1) strict "" (Stmt.delete [PyExpr.subscript stv (Slicer.indexS iv)]) st
        = Except.ok ((), ⟨{ c with
            parsed := c.parsed ++ ([Tok.kw "delete"] ++ callOf [tf, kf]),
            body := c.body ++ [[Tok.kw "delete"] ++ callOf [tf, kf]] } :: rest, imps⟩))
    ∧ (∀ (stv : PyExpr) (lo hi stp : Option PyExpr) (st : TState),
      parseStmtTop (n + 1) strict "" (Stmt.delete [PyExpr.subscript stv (Slicer.sliceS lo hi stp)]) st
        = Except.error (Err.panicked "unexpected DELETE"))
    ∧ (∀ (stv : PyExpr) (st : TState),
      parseStmtTop (n + 1) strict "" (Stmt.delete [PyExpr.subscript stv Slicer.extSlice]) st
        = Except.error (Err.panicked "unexpected DELETE"))
    ∧ (∀ (nn : String) (c : Scope) (rest : List Scope) (imps : List (String × String)),
      parseStmtTop (n + 1) false "" (Stmt.delete [PyExpr.name nn]) ⟨c :: rest, imps⟩
        = Except.ok ((), ⟨{ c with
            parsed := c.parsed ++ [Tok.cmtl "\"UNKNOWN-DELETE: *ast.Name  at line 0, col 0\"", Tok.cmtr],
            body := c.body ++ [[Tok.cmtl "\"UNKNOWN-DELETE: *ast.Name  at line 0, col 0\"", Tok.cmtr]] } :: rest, imps⟩))
    ∧ (∀ (nn : String) (st : TState),
      parseStmtTop (n + 1) true "" (Stmt.delete [PyExpr.name nn]) st
        = Except.error (Err.panicked "UNKNOWN-DELETE: *ast.Name  at line 0, col 0")) := by
  refine ⟨?_, ?_, ?_, ?_, ?_⟩
  · intro stv iv st st1 tf kf c rest imps ht hk
    have e0 : parseStmtTop (n + 1) strict "" (Stmt.delete [PyExpr.subscript stv (Slicer.indexS iv)]) st
        = TM.bind (goExpr n strict stv)
            (fun mf => TM.bind (goExpr n strict iv)
              (fun kf2 => TM.bind (addStmt ([Tok.kw "delete"] ++ callOf [mf, kf2]))
                (fun _ => deleteTargets n strict []))) st := rfl
    rw [e0, TM.bind_ok _ ht, TM.bind_ok _ hk]
    rfl
  · intro stv lo hi stp st
    rfl
  · intro stv st
    rfl
  · intro nn c rest imps
    rfl
  · intro nn st
    rfl

/-- Witness for the amended C8 at concrete inputs: deleting the
subscripted element m at key k becomes a delete call. -/
theorem delete_translation_amended_witness :
    parseStmtTop 99 false "" (Stmt.delete [PyExpr.subscript (PyExpr.name "m") (Slicer.indexS (PyExpr.name "k"))]) initState
      = Except.ok ((), oneStmtState
          [Tok.kw "delete", Tok.lparen, Tok.id "m", Tok.comma, Tok.id "k", Tok.rparen]) := by
  have h := (delete_translation_amended 98 false).1 (PyExpr.name "m") (PyExpr.name "k")
    initState initState [Tok.id "m"] [Tok.id "k"]
    { level := 0, vars := [], parsed := [], body := [], methods := [] } [] [] rfl rfl
  exact h

/-- Every expression is either a plain name or not. -/
theorem isName_or_not (t : PyExpr) : (∃ nn, t = PyExpr.name nn) ∨ (∀ nn, t ≠ PyExpr.name nn) := by
  cases t <;> first
    | exact Or.inl ⟨_, rfl⟩
    | exact Or.inr (fun nn h => PyExpr.noConfusion h)

/-- newNames skips a target that is not a plain name. -/
theorem newNames_cons_other (chain : List Scope) (t : PyExpr) (ts : List PyExpr)
    (h : ∀ nn, t ≠ PyExpr.name nn) :
    newNames chain (t :: ts) = newNames chain ts := by
  cases t <;> first
    | exact absurd rfl (h _)
    | rfl

/-- Characterization of Scope.newNames on a nonempty chain: the returned
chain extends only the head scope's name set, every inserted name is a
plain-name target, and the returned flag is true exactly when some
target is a plain name absent from every scope of the chain. -/
theorem newNames_spec (targets : List PyExpr) : ∀ (c : Scope) (rest : List Scope),
    ∃ added : List String,
      (newNames (c :: rest) targets).2 = { c with vars := added ++ c.vars } :: rest
      ∧ (∀ nn, nn ∈ added → ∃ t, t ∈ targets ∧ t = PyExpr.name nn)
      ∧ ((newNames (c :: rest) targets).1 = true ↔
          ∃ t, t ∈ targets ∧ ∃ nn, t = PyExpr.name nn ∧
            ((c :: rest).any fun sc => sc.vars.contains nn) = false) := by
  induction targets with
  | nil =>
      intro c rest
      refine ⟨[], rfl, ?_, ?_⟩
      · intro nn h
        exact absurd h (List.not_mem_nil nn)
      · simp [newNames]
  | cons t ts ih =>
      intro c rest
      rcases isName_or_not t with ⟨nn, rfl⟩ | hno
      · have e : newNames (c :: rest) (PyExpr.name nn :: ts)
            = if ((c :: rest).any fun sc => sc.vars.contains nn) = true
              then newNames (c :: rest) ts
              else (true, (newNames ({ c with vars := nn :: c.vars } :: rest) ts).2) := rfl
        by_cases hf : ((c :: rest).any fun sc => sc.vars.contains nn) = true
        · obtain ⟨added, h1, h2, h3⟩ := ih c rest
          rw [e, if_pos hf]
          refine ⟨added, h1, ?_, ?_⟩
          · intro nn2 hm
            obtain ⟨t2, ht2, he2⟩ := h2 nn2 hm
            exact ⟨t2, List.mem_cons_of_mem _ ht2, he2⟩
          · rw [h3]
            constructor
            · rintro ⟨t2, ht2, nn2, he2, ha2⟩
              exact ⟨t2, List.mem_cons_of_mem _ ht2, nn2, he2, ha2⟩
            · rintro ⟨t2, ht2, nn2, he2, ha2⟩
              rcases List.mem_cons.mp ht2 with heq | hmem
              · subst heq
                cases PyExpr.name.inj he2
                exact absurd hf (by rw [ha2]; exact Bool.false_ne_true)
              · exact ⟨t2, hmem, nn2, he2, ha2⟩
        · obtain ⟨added, h1, h2, h3⟩ := ih { c with vars := nn :: c.vars } rest
          rw [e, if_neg hf]
          refine ⟨added ++ [nn], ?_, ?_, ?_⟩
          · show (newNames ({ c with vars := nn :: c.vars } :: rest) ts).2
              = { c with vars := (added ++ [nn]) ++ c.vars } :: rest
            rw [h1]
            simp [List.append_assoc]
          · intro nn2 hm
            rcases List.mem_append.mp hm with hm1 | hm2
            · obtain ⟨t2, ht2, he2⟩ := h2 nn2 hm1
              exact ⟨t2, List.mem_cons_of_mem _ ht2, he2⟩
            · have : nn2 = nn := List.mem_singleton.mp hm2
              subst this
              exact ⟨PyExpr.name nn2, List.mem_cons_self _ _, rfl⟩
          · constructor
            · intro _
              exact ⟨PyExpr.name nn, List.mem_cons_self _ _, nn, rfl,
                Bool.eq_false_iff.mpr hf⟩
            · intro _
              rfl
      · rw [newNames_cons_other _ _ _ hno]
        obtain ⟨added, h1, h2, h3⟩ := ih c rest
        refine ⟨added, h1, ?_, ?_⟩
        · intro nn2 hm
          obtain ⟨t2, ht2, he2⟩ := h2 nn2 hm
          exact ⟨t2, List.mem_cons_of_mem _ ht2, he2⟩
        · rw [h3]
          constructor
          · rintro ⟨t2, ht2, nn2, he2, ha2⟩
            exact ⟨t2, List.mem_cons_of_mem _ ht2, nn2, he2, ha2⟩
          · rintro ⟨t2, ht2, nn2, he2, ha2⟩
            rcases List.mem_cons.mp ht2 with heq | hmem
            · exact absurd (heq ▸ he2) (hno nn2)
            · exact ⟨t2, hmem, nn2, he2, ha2⟩

/-- A scope with its name set replaced and one statement fragment
appended (the shape of the current scope after an assignment is
emitted). -/
def addedScope (c : Scope) (vars2 : List String) (f : Frag) : Scope :=
  { c with vars := vars2, parsed := c.parsed ++ f, body := c.body ++ [f] }

/-- Claim C3: for an assignment outside a class body, the emitted
statement carries the var declaration keyword exactly when some
plain-identifier target is absent from the current scope's name set and
from every ancestor scope's set; the names so classified are inserted
only into the current (head) scope's set, the ancestor scopes being
returned unchanged; otherwise the statement is a plain rebind with no
declaration keyword. -/
theorem assign_scope_claim (n : Nat) (strict : Bool) (targets : List PyExpr) (value : PyExpr)
    (st : TState) (tf vf : Frag) (c : Scope) (rest : List Scope) (imps : List (String × String))
    (hg : goAssign n strict targets value st = Except.ok ((tf, vf), ⟨c :: rest, imps⟩)) :
    ∃ added : List String,
      (newNames (c :: rest) targets).2 = { c with vars := added ++ c.vars } :: rest
      ∧ (∀ nn, nn ∈ added → ∃ t, t ∈ targets ∧ t = PyExpr.name nn)
      ∧ ((newNames (c :: rest) targets).1 = true ↔
          ∃ t, t ∈ targets ∧ ∃ nn, t = PyExpr.name nn ∧
            ((c :: rest).any fun sc => sc.vars.contains nn) = false)
      ∧ parseStmtTop (n + 1) strict "" (Stmt.assign targets value) st
          = Except.ok ((), ⟨addedScope c (added ++ c.vars)
              (if (newNames (c :: rest) targets).1
                then [Tok.kw "var"] ++ (tf ++ [Tok.op "="] ++ vf)
                else tf ++ [Tok.op "="] ++ vf) :: rest, imps⟩) := by
  obtain ⟨added, h1, h2, h3⟩ := newNames_spec targets c rest
  refine ⟨added, h1, h2, h3, ?_⟩
  have e0 : parseStmtTop (n + 1) strict "" (Stmt.assign targets value) st
      = TM.bind (goAssign n strict targets value) (fun tv =>
          TM.bind (applyNewNames targets) (fun isNew =>
            if isNew then addStmt ([Tok.kw "var"] ++ (tv.1 ++ [Tok.op "="] ++ tv.2))
            else addStmt (tv.1 ++ [Tok.op "="] ++ tv.2))) st := rfl
  rw [e0, TM.bind_ok _ hg]
  have e1 : applyNewNames targets ⟨c :: rest, imps⟩
      = Except.ok ((newNames (c :: rest) targets).1,
          ⟨(newNames (c :: rest) targets).2, imps⟩) := rfl
  rw [TM.bind_ok _ e1, h1]
  by_cases hflag : (newNames (c :: rest) targets).1 = true
  · rw [if_pos hflag, if_pos hflag]
    rfl
  · rw [if_neg hflag, if_neg hflag]
    rfl

/-- The inner scope of the C3 witness: a child scope with no known
names. -/
def c0W : Scope := { level := 1, vars := [], parsed := [], body := [], methods := [] }

/-- The root scope of the C3 witness: the name x is already declared. -/
def c1W : Scope := { level := 0, vars := ["x"], parsed := [], body := [], methods := [] }

/-- The C3 witness state: a two-scope chain, current scope c0W inside
root c1W. -/
def stW : TState := { chain := [c0W, c1W], imports := [] }

/-- Witness for C3 at a concrete input: assigning to x, which is
declared in the ancestor (root) scope but not in the current scope, is
emitted as a plain rebind with no var keyword, and no scope's name set
changes. -/
theorem assign_scope_claim_witness :
    parseStmtTop 99 false "" (Stmt.assign [PyExpr.name "x"] (PyExpr.num 1)) stW
      = Except.ok ((), ⟨[addedScope c0W [] [Tok.id "x", Tok.op "=", Tok.litInt 1], c1W], []⟩) := by
  have h := assign_scope_claim 98 false [PyExpr.name "x"] (PyExpr.num 1) stW
    [Tok.id "x"] [Tok.litInt 1] c0W [c1W] [] rfl
  obtain ⟨added, h1, h2, h3, h4⟩ := h
  have e2 : (newNames [c0W, c1W] [PyExpr.name "x"]).2 = [c0W, c1W] := rfl
  rw [e2] at h1
  have hc : c0W = { c0W with vars := added ++ c0W.vars } := List.head_eq_of_cons_eq h1
  have hv : c0W.vars = added ++ c0W.vars := congrArg Scope.vars hc
  have hadd : added = [] := by
    have h0 : ([] : List String) = added ++ [] := hv
    simpa using h0.symm
  rw [hadd] at h4
  exact h4

/-- The struct fragment emitted for a class with no field items. -/
def structOf (nm : String) : Frag :=
  [Tok.kw "type"] ++ goId nm ++ [Tok.kw "struct"] ++ [Tok.lbrace]
    ++ joinFrags [Tok.line] [] ++ [Tok.rbrace] ++ [Tok.line]

/-- Claim C4: translating a module-top-level class with exactly two
method definitions and no other items appends the struct fragment to
the parent's body first and then flushes the two buffered method
fragments — in order, exactly once, as separate top-level fragments
after the struct and never inside it — leaving the buffer empty.  The
two method translations themselves are black-boxed by the hypotheses
h1 and h2, which record that each runs in the pushed class scope and
leaves the parent scope untouched. -/
theorem class_methods_flush_once (i : Nat) (strict : Bool) (nm : String)
    (f1n f2n : String) (f1a f2a : Option Arguments) (f1b f2b : List Stmt)
    (f1d f2d : List PyExpr) (f1r f2r : Option PyExpr)
    (lv : Int) (vs : List String) (ps : Frag) (bd : List Frag)
    (imps impA impC : List (String × String)) (cA : Scope)
    (c2l : Int) (c2v : List String) (c2p : Frag) (c2b : List Frag)
    (h1 : parseStmtTop (i + 2) strict nm (Stmt.functionDef f1n f1a f1b f1d f1r)
        ⟨[⟨lv + 1, [], [], [], []⟩, ⟨lv, vs, ps, bd, []⟩], imps⟩
      = Except.ok ((), ⟨[cA, ⟨lv, vs, ps, bd, []⟩], impA⟩))
    (h2 : parseStmtTop (i + 1) strict nm (Stmt.functionDef f2n f2a f2b f2d f2r)
        ⟨[{ cA with parsed := [] }, ⟨lv, vs, ps, bd, [cA.parsed]⟩], impA⟩
      = Except.ok ((), ⟨[⟨c2l, c2v, c2p, c2b, []⟩, ⟨lv, vs, ps, bd, [cA.parsed]⟩], impC⟩)) :
    parseStmtTop (i + 5) strict ""
        (Stmt.classDef nm [] []
          [Stmt.functionDef f1n f1a f1b f1d f1r, Stmt.functionDef f2n f2a f2b f2d f2r] [])
        ⟨[⟨lv, vs, ps, bd, []⟩], imps⟩
      = Except.ok ((), ⟨[⟨lv, vs, ps ++ structOf nm,
          (bd ++ [structOf nm]) ++ [cA.parsed, c2p], []⟩], impC⟩) := by
  have e0 : parseStmtTop (i + 5) strict ""
        (Stmt.classDef nm [] []
          [Stmt.functionDef f1n f1a f1b f1d f1r, Stmt.functionDef f2n f2a f2b f2d f2r] [])
        ⟨[⟨lv, vs, ps, bd, []⟩], imps⟩
      = TM.bind (classItems (i + 3) strict nm
            [Stmt.functionDef f1n f1a f1b f1d f1r, Stmt.functionDef f2n f2a f2b f2d f2r])
          (fun items =>
            TM.bind (atParent (decoComments (i + 3) strict "@%v\n" []))
              (fun _ => TM.bind (atParent (addStmt
                  ([Tok.kw "type"] ++ goId nm ++ [Tok.kw "struct"] ++ [Tok.lbrace]
                    ++ joinFrags [Tok.line] ([] ++ items) ++ [Tok.rbrace] ++ [Tok.line])))
                (fun _ => popScope)))
          ⟨[⟨lv + 1, [], [], [], []⟩, ⟨lv, vs, ps, bd, []⟩], imps⟩ := rfl
  rw [e0]
  have hI : classItems (i + 3) strict nm
        [Stmt.functionDef f1n f1a f1b f1d f1r, Stmt.functionDef f2n f2a f2b f2d f2r]
        ⟨[⟨lv + 1, [], [], [], []⟩, ⟨lv, vs, ps, bd, []⟩], imps⟩
      = Except.ok ([], ⟨[⟨c2l, c2v, [], c2b, []⟩, ⟨lv, vs, ps, bd, [cA.parsed, c2p]⟩], impC⟩) := by
    have eA : classItems (i + 3) strict nm
          [Stmt.functionDef f1n f1a f1b f1d f1r, Stmt.functionDef f2n f2a f2b f2d f2r]
          ⟨[⟨lv + 1, [], [], [], []⟩, ⟨lv, vs, ps, bd, []⟩], imps⟩
        = TM.bind (parseStmtTop (i + 2) strict nm (Stmt.functionDef f1n f1a f1b f1d f1r))
            (fun _ => TM.bind renderScope (fun mfrag =>
              TM.bind (atParent (modifyCur fun c2 => { c2 with methods := c2.methods ++ [mfrag] }))
                (fun _ => classItems (i + 2) strict nm [Stmt.functionDef f2n f2a f2b f2d f2r])))
            ⟨[⟨lv + 1, [], [], [], []⟩, ⟨lv, vs, ps, bd, []⟩], imps⟩ := rfl
    rw [eA, TM.bind_ok _ h1]
    have rB : renderScope ⟨[cA, ⟨lv, vs, ps, bd, []⟩], impA⟩
        = Except.ok (cA.parsed, ⟨[{ cA with parsed := [] }, ⟨lv, vs, ps, bd, []⟩], impA⟩) := rfl
    rw [TM.bind_ok _ rB]
    have rC : atParent (modifyCur fun c2 => { c2 with methods := c2.methods ++ [cA.parsed] })
          ⟨[{ cA with parsed := [] }, ⟨lv, vs, ps, bd, []⟩], impA⟩
        = Except.ok ((), ⟨[{ cA with parsed := [] }, ⟨lv, vs, ps, bd, [cA.parsed]⟩], impA⟩) := rfl
    rw [TM.bind_ok _ rC]
    have eB : classItems (i + 2) strict nm [Stmt.functionDef f2n f2a f2b f2d f2r]
          ⟨[{ cA with parsed := [] }, ⟨lv, vs, ps, bd, [cA.parsed]⟩], impA⟩
        = TM.bind (parseStmtTop (i + 1) strict nm (Stmt.functionDef f2n f2a f2b f2d f2r))
            (fun _ => TM.bind renderScope (fun mfrag =>
              TM.bind (atParent (modifyCur fun c2 => { c2 with methods := c2.methods ++ [mfrag] }))
                (fun _ => classItems (i + 1) strict nm [])))
            ⟨[{ cA with parsed := [] }, ⟨lv, vs, ps, bd, [cA.parsed]⟩], impA⟩ := rfl
    rw [eB, TM.bind_ok _ h2]
    have rD : renderScope ⟨[⟨c2l, c2v, c2p, c2b, []⟩, ⟨lv, vs, ps, bd, [cA.parsed]⟩], impC⟩
        = Except.ok (c2p, ⟨[⟨c2l, c2v, [], c2b, []⟩, ⟨lv, vs, ps, bd, [cA.parsed]⟩], impC⟩) := rfl
    rw [TM.bind_ok _ rD]
    have rE : atParent (modifyCur fun c2 => { c2 with methods := c2.methods ++ [c2p] })
          ⟨[⟨c2l, c2v, [], c2b, []⟩, ⟨lv, vs, ps, bd, [cA.parsed]⟩], impC⟩
        = Except.ok ((), ⟨[⟨c2l, c2v, [], c2b, []⟩, ⟨lv, vs, ps, bd, [cA.parsed, c2p]⟩], impC⟩) := rfl
    rw [TM.bind_ok _ rE]
    rfl
  rw [TM.bind_ok _ hI]
  have rF : atParent (decoComments (i + 3) strict "@%v\n" [])
        ⟨[⟨c2l, c2v, [], c2b, []⟩, ⟨lv, vs, ps, bd, [cA.parsed, c2p]⟩], impC⟩
      = Except.ok ((), ⟨[⟨c2l, c2v, [], c2b, []⟩, ⟨lv, vs, ps, bd, [cA.parsed, c2p]⟩], impC⟩) := rfl
  rw [TM.bind_ok _ rF]
  have rG : atParent (addStmt
        ([Tok.kw "type"] ++ goId nm ++ [Tok.kw "struct"] ++ [Tok.lbrace]
          ++ joinFrags [Tok.line] ([] ++ []) ++ [Tok.rbrace] ++ [Tok.line]))
        ⟨[⟨c2l, c2v, [], c2b, []⟩, ⟨lv, vs, ps, bd, [cA.parsed, c2p]⟩], impC⟩
      = Except.ok ((), ⟨[⟨c2l, c2v, [], c2b, []⟩,
          ⟨lv, vs, ps ++ structOf nm, bd ++ [structOf nm], [cA.parsed, c2p]⟩], impC⟩) := rfl
  rw [TM.bind_ok _ rG]
  rfl

/-- The receiver method fragment emitted for a pass-body method of the
witness class C. -/
def methodFrag (mn : String) : Frag :=
  [Tok.kw "func", Tok.lparen, Tok.id "self", Tok.op "*", Tok.id "C", Tok.rparen,
   Tok.id mn, Tok.lparen, Tok.rparen, Tok.lbrace, Tok.cmtl "pass", Tok.cmtr,
   Tok.rbrace, Tok.line]

/-- Witness for C4 at a concrete input: a module-top-level class C with
two pass-body methods m1 and m2 emits the struct fragment first and the
two receiver methods after it, with the method buffer left empty. -/
theorem class_methods_flush_once_witness :
    parseStmtTop 99 false ""
        (Stmt.classDef "C" [] []
          [Stmt.functionDef "m1" (Option.some (Arguments.mk [PyArg.mk "self" Option.none] Option.none [] [] Option.none)) [Stmt.pass] [] Option.none,
           Stmt.functionDef "m2" (Option.some (Arguments.mk [PyArg.mk "self" Option.none] Option.none [] [] Option.none)) [Stmt.pass] [] Option.none] [])
        initState
      = Except.ok ((), ⟨[⟨0, [],
          [Tok.kw "type", Tok.id "C", Tok.kw "struct", Tok.lbrace, Tok.rbrace, Tok.line],
          [[Tok.kw "type", Tok.id "C", Tok.kw "struct", Tok.lbrace, Tok.rbrace, Tok.line],
            methodFrag "m1", methodFrag "m2"],
          []⟩], []⟩) := by
  have h := class_methods_flush_once 94 false "C" "m1" "m2"
    (Option.some (Arguments.mk [PyArg.mk "self" Option.none] Option.none [] [] Option.none))
    (Option.some (Arguments.mk [PyArg.mk "self" Option.none] Option.none [] [] Option.none))
    [Stmt.pass] [Stmt.pass] [] [] Option.none Option.none
    0 [] [] [] [] [] []
    ⟨1, [], methodFrag "m1", [methodFrag "m1"], []⟩
    1 [] (methodFrag "m2") [methodFrag "m1", methodFrag "m2"]
    rfl rfl
  exact h
